import Mathlib

/-!
Verification of the credential-lifecycle core of the youtube-companion-dashboard
repository, as a shallow embedding in Lean 4.

Strings that the TypeScript source manipulates byte-wise (hex envelopes,
plaintext secrets, keys) are embedded as `List Nat` of byte values; strings
only ever compared for equality (user ids, channel ids, error messages) are
embedded as Lean `String`.  Node's `crypto` AES-256-GCM cipher is an external
collaborator of the repository; it is modelled as an ideal authenticated
cipher (an invertible keyed keystream plus an injective authentication code),
which is the standard idealisation: authentication failures that are
cryptographically overwhelming become certain in the model.  Everything else
(the hex envelope format, the `split(':')` parsing, the falsiness checks, the
refresh state machine, the error classifier, the middleware `catch` chains)
is translated directly from the TypeScript source.
-/

set_option maxRecDepth 8000

namespace YtDash

/-- Decidable equality of `Except` results, used to state and evaluate
observable outcomes. -/
instance {ε α : Type} [DecidableEq ε] [DecidableEq α] :
    DecidableEq (Except ε α) := fun a b =>
  match a, b with
  | .error e, .error e' =>
    if h : e = e' then .isTrue (by rw [h]) else .isFalse (by simp [h])
  | .ok v, .ok v' =>
    if h : v = v' then .isTrue (by rw [h]) else .isFalse (by simp [h])
  | .error _, .ok _ => .isFalse (by simp)
  | .ok _, .error _ => .isFalse (by simp)

/-! ## Byte-level string model: hex encoding (Buffer.toString('hex')) -/

/-- Lower-case hex digit for a nibble, as its ASCII byte
(`Buffer.toString('hex')` emits lower case). -/
def hexDigitChar (n : Nat) : Nat :=
  if n < 10 then 48 + n else 87 + n

/-- Two hex characters of one byte. -/
def byteToHex (b : Nat) : List Nat :=
  [hexDigitChar (b / 16), hexDigitChar (b % 16)]

/-- Hex rendering of a byte string, as `Buffer.toString('hex')` produces. -/
def bytesToHex : List Nat → List Nat
  | [] => []
  | b :: rest => byteToHex b ++ bytesToHex rest

/-- Value of one hex character; `Buffer.from(_, 'hex')` accepts both cases. -/
def hexVal (c : Nat) : Option Nat :=
  if 48 ≤ c ∧ c ≤ 57 then some (c - 48)
  else if 97 ≤ c ∧ c ≤ 102 then some (c - 87)
  else if 65 ≤ c ∧ c ≤ 70 then some (c - 55)
  else none

/-- Hex parsing with Node `Buffer.from(_, 'hex')` semantics: bytes are decoded
pair by pair and decoding stops silently at the first invalid pair or at a
dangling final character. -/
def hexToBytes : List Nat → List Nat
  | c1 :: c2 :: rest =>
    match hexVal c1, hexVal c2 with
    | some h, some l => (16 * h + l) :: hexToBytes rest
    | _, _ => []
  | _ => []

/-! ## String splitting (String.prototype.split(':')) -/

/-- ASCII code of the envelope delimiter character. -/
def colon : Nat := 58

/-- JS `s.split(':')`: the list of (possibly empty) segments; always
nonempty. -/
def splitOnColon : List Nat → List (List Nat)
  | [] => [[]]
  | c :: rest =>
    match splitOnColon rest with
    | s :: ss => if c = colon then [] :: s :: ss else (c :: s) :: ss
    | [] => [[]]

/-- JS falsiness of an optionally-absent string: `undefined` and the empty
string are falsy. -/
def jsFalsy : Option (List Nat) → Bool
  | none => true
  | some [] => true
  | some (_ :: _) => false

/-! ## Ideal AES-256-GCM (external collaborator, Node `crypto`)

The keystream and the authentication code below are the ideal-cipher model of
`createCipheriv('aes-256-gcm', keyBuffer, iv)`: encryption XORs the plaintext
with a keystream determined by key and IV, and the auth tag is an injective
function of the IV and the ciphertext, so a tag check fails exactly when the
(IV, ciphertext) pair it authenticates has changed. -/

/-- Ideal keystream byte `i` for a given key buffer and IV. -/
def ksByte (keyBuffer iv : List Nat) (i : Nat) : Nat :=
  (keyBuffer.sum + iv.sum + i) % 256

/-- XOR a byte string against the keystream starting at position `i`; applying
it twice restores the input. -/
def xorKs (keyBuffer iv : List Nat) : Nat → List Nat → List Nat
  | _, [] => []
  | i, b :: rest => (b ^^^ ksByte keyBuffer iv i) :: xorKs keyBuffer iv (i + 1) rest

/-- Ideal GCM authentication tag over an IV and a ciphertext: a leading unary
run recording the total length, a zero marker, then the authenticated data.
Injective in the (IV, ciphertext) pair, and every byte is below 256 whenever
the inputs are. -/
def gcmTag (iv ct : List Nat) : List Nat :=
  List.replicate (iv.length + ct.length) 1 ++ 0 :: (iv ++ ct)

/-! ## Encryption codec (src/backend/src/utils/encryption.ts)

`encrypt` and `decrypt` below translate the source functions line by line;
the random `crypto.randomBytes(16)` IV of `encrypt` is passed explicitly.
Return values are `Except String` with the thrown `Error` messages of the
source. -/

/-- The `encrypt` function of encryption.ts: key check, ideal cipher, and the
`iv:authTag:encryptedData` hex envelope. -/
def encrypt (key iv text : List Nat) : Except String (List Nat) :=
  if key.length ≠ 64 then
    .error "ENCRYPTION_KEY must be a 64-character hex string (32 bytes)"
  else
    let keyBuffer := hexToBytes key
    if keyBuffer.length ≠ 32 then .error "Invalid key length"
    else
      let encrypted := xorKs keyBuffer iv 0 text
      let authTag := gcmTag iv encrypted
      .ok (bytesToHex iv ++ colon :: bytesToHex authTag ++ colon :: bytesToHex encrypted)

/-- The `decrypt` function of encryption.ts: key check, `split(':')` with the
source's falsiness test on the first three segments, hex parsing, then the
ideal authenticated decipher. -/
def decrypt (key encryptedText : List Nat) : Except String (List Nat) :=
  if key.length ≠ 64 then
    .error "ENCRYPTION_KEY must be a 64-character hex string (32 bytes)"
  else
    let parts := splitOnColon encryptedText
    let ivHex := parts.get? 0
    let authTagHex := parts.get? 1
    let encrypted := parts.get? 2
    if jsFalsy ivHex ∨ jsFalsy authTagHex ∨ jsFalsy encrypted then
      .error "Invalid encrypted text format"
    else
      let keyBuffer := hexToBytes key
      if keyBuffer.length ≠ 32 then .error "Invalid key length"
      else
        let iv := hexToBytes (ivHex.getD [])
        let authTag := hexToBytes (authTagHex.getD [])
        let ct := hexToBytes (encrypted.getD [])
        if authTag = gcmTag iv ct then .ok (xorKs keyBuffer iv 0 ct)
        else .error "Unsupported state or unable to authenticate data"

/-! ## Credential store and refresh manager
(src/backend/src/services/auth.service.ts)

`getValidAccessToken` and `refreshAccessToken` are translated directly.  The
Prisma `oAuthToken` row is the `TokenRecord` structure; timestamps are integer
milliseconds.  The Google token-exchange endpoint
(`oauth2Client.refreshAccessToken()`) is an external collaborator, so its
outcome for this call is an explicit argument `providerResp`; the returned
`refreshCalls` counts how many times that endpoint was actually invoked and
`storeWrite` is the `prisma.oAuthToken.update` payload (a full row, since the
update keeps every field it does not mention). -/

/-- One `oAuthToken` row: encrypted access and refresh secrets, expiry
(epoch milliseconds) and granted scope. -/
structure TokenRecord where
  accessToken : List Nat
  refreshToken : List Nat
  accessTokenExpiresAt : Int
  scope : List Nat
  deriving Repr, DecidableEq

/-- The fields of the Google token-exchange response that the source reads
(`credentials.access_token`, `.refresh_token`, `.expiry_date`). -/
structure Credentials where
  access_token : Option (List Nat)
  refresh_token : Option (List Nat)
  expiry_date : Option Int
  deriving Repr, DecidableEq

/-- Observable outcome of one `getValidAccessToken` call: its return value or
thrown error, the number of provider refresh exchanges it performed, and the
store update it issued (if any). -/
structure AuthResult where
  result : Except String (List Nat)
  refreshCalls : Nat
  storeWrite : Option TokenRecord
  deriving Repr, DecidableEq

/-- JS truthiness of an optionally-absent string value. -/
def jsTruthyBytes : Option (List Nat) → Bool
  | none => false
  | some [] => false
  | some (_ :: _) => true

/-- JS truthiness of an optionally-absent number (`0` is falsy). -/
def jsTruthyInt : Option Int → Bool
  | none => false
  | some d => d ≠ 0

/-- The private `AuthService.refreshAccessToken`: decrypt the stored refresh
secret, call the provider exchange, and on success persist the new access
secret and expiry — spreading in a new refresh secret only when the response
carries a truthy one.  `ivA`/`ivR` are the random IVs the two `encrypt` calls
would draw; `now` is `Date.now()`. -/
def refreshAccessToken (key ivA ivR : List Nat) (now : Int)
    (encryptedRefreshToken : List Nat) (providerResp : Except String Credentials)
    (oldRec : TokenRecord) : AuthResult :=
  match decrypt key encryptedRefreshToken with
  | .error e => { result := .error e, refreshCalls := 0, storeWrite := none }
  | .ok _refreshToken =>
    match providerResp with
    | .error e => { result := .error e, refreshCalls := 1, storeWrite := none }
    | .ok credentials =>
      match credentials.access_token with
      | none =>
        { result := .error "Failed to refresh access token", refreshCalls := 1
          storeWrite := none }
      | some accessTok =>
        if accessTok = [] then
          { result := .error "Failed to refresh access token", refreshCalls := 1
            storeWrite := none }
        else
          match encrypt key ivA accessTok with
          | .error e => { result := .error e, refreshCalls := 1, storeWrite := none }
          | .ok encAccess =>
            let newExpiry : Int :=
              if jsTruthyInt credentials.expiry_date then credentials.expiry_date.getD 0
              else now + 3600000
            match credentials.refresh_token with
            | some newRt =>
              if newRt = [] then
                { result := .ok accessTok, refreshCalls := 1
                  storeWrite := some { accessToken := encAccess
                                       refreshToken := oldRec.refreshToken
                                       accessTokenExpiresAt := newExpiry
                                       scope := oldRec.scope } }
              else
                match encrypt key ivR newRt with
                | .error e =>
                  { result := .error e, refreshCalls := 1, storeWrite := none }
                | .ok encRefresh =>
                  { result := .ok accessTok, refreshCalls := 1
                    storeWrite := some { accessToken := encAccess
                                         refreshToken := encRefresh
                                         accessTokenExpiresAt := newExpiry
                                         scope := oldRec.scope } }
            | none =>
              { result := .ok accessTok, refreshCalls := 1
                storeWrite := some { accessToken := encAccess
                                     refreshToken := oldRec.refreshToken
                                     accessTokenExpiresAt := newExpiry
                                     scope := oldRec.scope } }

/-- `AuthService.getValidAccessToken`, starting from the `oAuthToken` row the
initial `findUnique` returned (`none` when absent): the five-minute-buffer
staleness test, then either the fresh-path decrypt or the refresh. -/
def getValidAccessTokenFrom (key ivA ivR : List Nat) (now : Int)
    (record : Option TokenRecord) (providerResp : Except String Credentials) :
    AuthResult :=
  match record with
  | none =>
    { result := .error "No OAuth token found for user", refreshCalls := 0
      storeWrite := none }
  | some tokenRecord =>
    if tokenRecord.accessTokenExpiresAt - now < 5 * 60 * 1000 then
      refreshAccessToken key ivA ivR now tokenRecord.refreshToken providerResp
        tokenRecord
    else
      { result := decrypt key tokenRecord.accessToken, refreshCalls := 0
        storeWrite := none }

/-- `AuthService.getValidAccessToken` run alone against a credential store
holding `store` for this user. -/
def getValidAccessToken (key ivA ivR : List Nat) (now : Int)
    (store : Option TokenRecord) (providerResp : Except String Credentials) :
    AuthResult :=
  getValidAccessTokenFrom key ivA ivR now store providerResp

/-- Two concurrent `getValidAccessToken` calls for the same user, under the
cooperative schedule in which both callers complete their initial
`prisma.oAuthToken.findUnique` await before either proceeds (a legal
interleaving, since `findUnique` is a suspension point).  Each caller then
runs to completion from its own snapshot; writes land in arrival order. -/
def runTwoConcurrent (key iv1A iv1R iv2A iv2R : List Nat) (now : Int)
    (store : Option TokenRecord)
    (providerResp1 providerResp2 : Except String Credentials) :
    AuthResult × AuthResult × Option TokenRecord :=
  let snap1 := store
  let snap2 := store
  let r1 := getValidAccessTokenFrom key iv1A iv1R now snap1 providerResp1
  let store1 := match r1.storeWrite with | some w => some w | none => store
  let r2 := getValidAccessTokenFrom key iv2A iv2R now snap2 providerResp2
  let store2 := match r2.storeWrite with | some w => some w | none => store1
  (r1, r2, store2)

/-! ## Error classifier (middleware/errorHandler.ts, src/unnamed/part_008)

`handleYouTubeQuotaError` reads `error?.response?.status` and
`error?.response?.data?.error?.errors?.[0]?.reason` through optional
chaining; the nested option structure below mirrors exactly the fields the
source dereferences. -/

/-- The `ApiError` class: HTTP status code and message. -/
structure ApiError where
  statusCode : Nat
  message : String
  deriving Repr, DecidableEq

/-- One entry of `error.response.data.error.errors`. -/
structure YtReasonItem where
  reason : Option String
  deriving Repr, DecidableEq

/-- The `error.response.data.error` object. -/
structure YtErrorObj where
  errors : Option (List YtReasonItem)
  deriving Repr, DecidableEq

/-- The `error.response.data` object. -/
structure YtRespData where
  error : Option YtErrorObj
  deriving Repr, DecidableEq

/-- The `error.response` object: HTTP status and body. -/
structure YtResponse where
  status : Option Int
  data : Option YtRespData
  deriving Repr, DecidableEq

/-- A raw provider error as the classifier receives it (`any` in the source:
every probed field is optional). -/
structure ProviderError where
  response : Option YtResponse
  deriving Repr, DecidableEq

/-- The optional chain `error?.response?.data?.error?.errors?.[0]?.reason`. -/
def providerReason (e : ProviderError) : Option String :=
  ((((e.response.bind (·.data)).bind (·.error)).bind (·.errors)).bind
    (·.head?)).bind (·.reason)

/-- The `handleYouTubeQuotaError` classifier, translated branch by branch. -/
def handleYouTubeQuotaError (e : ProviderError) : ApiError :=
  if e.response.bind (·.status) = some 403 then
    match providerReason e with
    | some r =>
      if r = "quotaExceeded" then
        ⟨429, "YouTube API quota exceeded. Please try again later."⟩
      else if r = "forbidden" then
        ⟨403, "You do not have permission to perform this action."⟩
      else ⟨500, "An error occurred with the YouTube API"⟩
    | none => ⟨500, "An error occurred with the YouTube API"⟩
  else ⟨500, "An error occurred with the YouTube API"⟩

/-- The spec's closed domain-error taxonomy (§7). -/
inductive DomainKind where
  | quotaExceeded
  | permissionDenied
  | resourceNotFound
  | reauthorizationRequired
  | upstreamError
  deriving Repr, DecidableEq

/-- Modelled from the spec: the classifier table of §4.5 read backwards, i.e.
which domain kind an HTTP reply status of the backend corresponds to (429
rate-limited → QuotaExceeded, 403 → PermissionDenied, 404 → ResourceNotFound,
401 → ReauthorizationRequired, anything else → generic UpstreamError). -/
def specKindOfStatus (s : Nat) : DomainKind :=
  if s = 429 then .quotaExceeded
  else if s = 403 then .permissionDenied
  else if s = 404 then .resourceNotFound
  else if s = 401 then .reauthorizationRequired
  else .upstreamError

/-! ## Session credential issuer / verifier (middleware/auth.ts, embedded in
src/frontend/src/pages/AuthCallback.tsx)

The `jsonwebtoken` library is an external collaborator; `jwtSign`/`jwtVerify`
model its documented behaviour: a token carries the payload, issued-at and
expiry claims plus a keyed signature; `verify` first checks the signature
(`JsonWebTokenError "invalid signature"` on mismatch) and then the expiry
(`TokenExpiredError` once `exp` is in the past).  Crucially, in the library
`TokenExpiredError` is a subclass of `JsonWebTokenError`, so an
`instanceof JsonWebTokenError` test is `true` for expired tokens too — that
subclass fact is `JwtError.isJsonWebTokenError` below. -/

/-- The JWT payload the backend signs: `{ userId, email, googleId }`. -/
structure JwtPayload where
  userId : String
  email : String
  googleId : String
  deriving Repr, DecidableEq

/-- Keyed signature over payload and claims (ideal MAC, a plain injective
encoding). -/
def jwtMac (secret : String) (p : JwtPayload) (iat exp : Int) : String :=
  secret ++ "." ++ p.userId ++ "." ++ p.email ++ "." ++ p.googleId ++ "." ++
    toString iat ++ "." ++ toString exp

/-- A signed session token as `jwt.sign` produces it. -/
structure SignedToken where
  payload : JwtPayload
  iat : Int
  exp : Int
  sig : String
  deriving Repr, DecidableEq

/-- The errors `jwt.verify` throws; `tokenExpiredError` is (in the library)
a subclass of `JsonWebTokenError`. -/
inductive JwtError where
  | jsonWebTokenError (msg : String)
  | tokenExpiredError
  deriving Repr, DecidableEq

/-- The `instanceof jwt.JsonWebTokenError` test: true for every constructor,
because `TokenExpiredError extends JsonWebTokenError` in the library. -/
def JwtError.isJsonWebTokenError : JwtError → Bool
  | _ => true

/-- The `instanceof jwt.TokenExpiredError` test. -/
def JwtError.isTokenExpiredError : JwtError → Bool
  | .tokenExpiredError => true
  | _ => false

/-- `jwt.sign(payload, secret, expiresIn)` at time `now` (seconds). -/
def jwtSign (secret : String) (p : JwtPayload) (now expiresIn : Int) :
    SignedToken :=
  { payload := p, iat := now, exp := now + expiresIn
    sig := jwtMac secret p now (now + expiresIn) }

/-- `jwt.verify(token, secret)` at time `now`: signature first, then expiry. -/
def jwtVerify (secret : String) (now : Int) (t : SignedToken) :
    Except JwtError JwtPayload :=
  if t.sig ≠ jwtMac secret t.payload t.iat t.exp then
    .error (.jsonWebTokenError "invalid signature")
  else if t.exp ≤ now then .error .tokenExpiredError
  else .ok t.payload

/-- The `generateToken` helper of middleware/auth.ts. -/
def generateToken (jwtSecret : Option String) (user : JwtPayload)
    (now expiresIn : Int) : Except String SignedToken :=
  match jwtSecret with
  | none => .error "JWT_SECRET not configured"
  | some secret => .ok (jwtSign secret user now expiresIn)

/-- What the `authenticate` middleware hands to `next(...)`: a typed
`ApiError` reply or an unclassified error (which the global handler turns
into a 500). -/
inductive AuthFailure where
  | api (e : ApiError)
  | other (msg : String)
  deriving Repr, DecidableEq

/-- Everything the `try` body of `authenticate` can throw. -/
inductive AuthThrown where
  | api (e : ApiError)
  | jwt (e : JwtError)
  | generic (msg : String)

/-- The `try` body of the `authenticate` middleware: token presence, secret
presence, `jwt.verify`, then the user-existence re-check. -/
def authenticateBody (jwtSecret : Option String) (userExists : String → Bool)
    (now : Int) (token : Option SignedToken) : Except AuthThrown JwtPayload :=
  match token with
  | none => .error (.api ⟨401, "Authentication required"⟩)
  | some tok =>
    match jwtSecret with
    | none => .error (.generic "JWT_SECRET not configured")
    | some secret =>
      match jwtVerify secret now tok with
      | .error e => .error (.jwt e)
      | .ok decoded =>
        if userExists decoded.userId then .ok decoded
        else .error (.api ⟨401, "User not found"⟩)

/-- The `authenticate` middleware with its `catch` chain: `ApiError` is
forwarded as is; then `instanceof jwt.JsonWebTokenError` (which an expired
token also satisfies) maps to 401 "Invalid token"; the `TokenExpiredError`
branch follows it; anything else is passed on unclassified. -/
def authenticate (jwtSecret : Option String) (userExists : String → Bool)
    (now : Int) (token : Option SignedToken) : Except AuthFailure JwtPayload :=
  match authenticateBody jwtSecret userExists now token with
  | .ok p => .ok p
  | .error thrown =>
    match thrown with
    | .api e => .error (.api e)
    | .jwt e =>
      if e.isJsonWebTokenError then .error (.api ⟨401, "Invalid token"⟩)
      else if e.isTokenExpiredError then .error (.api ⟨401, "Token expired"⟩)
      else .error (.other "unhandled")
    | .generic m => .error (.other m)

/-! ## Comment service (comment.service.ts, embedded in
src/frontend/src/components/VideoSelector.tsx)

The YouTube Data API responses are external inputs, so `deleteComment` and
`getComments` are modelled as functions of the (successful) responses of the
provider calls they issue, with every optional field the source probes kept
optional.  JS `x || d` string defaulting is `jsOrStr` (the empty string is
falsy); `x === y` between two possibly-undefined strings is `Option`
equality. -/

/-- JS `x || default` over an optionally-absent string. -/
def jsOrStr (x : Option String) (d : String) : String :=
  match x with
  | none => d
  | some s => if s = "" then d else s

/-- JS `x || default` over an optionally-absent number. -/
def jsOrNat (x : Option Nat) (d : Nat) : Nat :=
  match x with
  | none => d
  | some n => if n = 0 then d else n

/-- An `authorChannelId` object: `{ value?: string }`. -/
structure AuthorChannelId where
  value : Option String
  deriving Repr, DecidableEq

/-- A raw comment snippet as the source dereferences it. -/
structure RawCommentSnippet where
  authorDisplayName : Option String
  authorProfileImageUrl : Option String
  authorChannelId : Option AuthorChannelId
  textDisplay : Option String
  textOriginal : Option String
  likeCount : Option Nat
  publishedAt : Option String
  updatedAt : Option String
  deriving Repr, DecidableEq

/-- An item of a `comments.list` response (`{ id?, snippet? }`). -/
structure RawComment where
  id : Option String
  snippet : Option RawCommentSnippet
  deriving Repr, DecidableEq

/-- An item of a `channels.list` response. -/
structure RawChannel where
  id : Option String
  deriving Repr, DecidableEq

/-- A raw `commentThreads.list` item: its thread snippet and replies. -/
structure RawTopLevelComment where
  id : Option String
  snippet : Option RawCommentSnippet
  deriving Repr, DecidableEq

/-- The `thread.snippet` object. -/
structure RawThreadSnippet where
  topLevelComment : Option RawTopLevelComment
  totalReplyCount : Option Nat
  deriving Repr, DecidableEq

/-- The `thread.replies` object. -/
structure RawReplies where
  comments : Option (List RawComment)
  deriving Repr, DecidableEq

/-- One item of the `commentThreads.list` response. -/
structure RawThread where
  id : Option String
  snippet : Option RawThreadSnippet
  replies : Option RawReplies
  deriving Repr, DecidableEq

/-- Outcome of `CommentService.deleteComment`: the thrown/returned value and
whether the underlying `youtube.comments.delete` call was issued. -/
structure DeleteOutcome where
  result : Except ApiError Unit
  deleteIssued : Bool
  deriving Repr, DecidableEq

/-- The author-channel chain `comment.snippet?.authorChannelId?.value`. -/
def rawCommentAuthor (c : RawComment) : Option String :=
  (c.snippet.bind (·.authorChannelId)).bind (·.value)

/-- `CommentService.deleteComment`, as a function of the two provider lookups
it performs before the delete: the `comments.list` items and the
`channels.list` items.  The source's surrounding `catch` rethrows `ApiError`
unchanged, so the two typed throws below survive classification. -/
def deleteComment (commentsItems : Option (List RawComment))
    (channelItems : Option (List RawChannel)) : DeleteOutcome :=
  match commentsItems.bind (·.head?) with
  | none => { result := .error ⟨404, "Comment not found"⟩, deleteIssued := false }
  | some comment =>
    let userChannelId : Option String := (channelItems.bind (·.head?)).bind (·.id)
    if rawCommentAuthor comment ≠ userChannelId then
      { result := .error ⟨403, "You can only delete your own comments"⟩
        deleteIssued := false }
    else
      { result := .ok (), deleteIssued := true }

/-- A comment as `getComments` returns it to the client. -/
structure CommentOut where
  id : String
  authorDisplayName : String
  authorProfileImageUrl : String
  authorChannelId : String
  textDisplay : String
  textOriginal : String
  likeCount : Nat
  publishedAt : String
  updatedAt : String
  canDelete : Bool
  deriving Repr, DecidableEq

/-- A comment thread as `getComments` returns it. -/
structure ThreadOut where
  id : String
  topLevelComment : CommentOut
  totalReplyCount : Nat
  replies : List CommentOut
  deriving Repr, DecidableEq

/-- The value `getComments` resolves with. -/
structure GetCommentsOut where
  comments : List ThreadOut
  nextPageToken : Option String
  userChannelId : String
  deriving Repr, DecidableEq

/-- The author-channel chain of a thread's top-level comment,
`thread.snippet?.topLevelComment?.snippet?.authorChannelId?.value`. -/
def rawThreadTopAuthor (t : RawThread) : Option String :=
  ((((t.snippet.bind (·.topLevelComment)).bind (·.snippet)).bind
    (·.authorChannelId)).bind (·.value))

/-- The reply list `thread.replies?.comments` with its `|| []` default. -/
def rawThreadReplies (t : RawThread) : List RawComment :=
  (t.replies.bind (·.comments)).getD []

/-- The reply mapper inside `getComments`. -/
def mapReply (userChannelId : String) (reply : RawComment) : CommentOut :=
  { id := jsOrStr reply.id ""
    authorDisplayName := jsOrStr (reply.snippet.bind (·.authorDisplayName)) "Unknown"
    authorProfileImageUrl := jsOrStr (reply.snippet.bind (·.authorProfileImageUrl)) ""
    authorChannelId := jsOrStr (rawCommentAuthor reply) ""
    textDisplay := jsOrStr (reply.snippet.bind (·.textDisplay)) ""
    textOriginal := jsOrStr (reply.snippet.bind (·.textOriginal)) ""
    likeCount := jsOrNat (reply.snippet.bind (·.likeCount)) 0
    publishedAt := jsOrStr (reply.snippet.bind (·.publishedAt)) ""
    updatedAt := jsOrStr (reply.snippet.bind (·.updatedAt)) ""
    canDelete := rawCommentAuthor reply = some userChannelId }

/-- The thread mapper inside `getComments`. -/
def mapThread (userChannelId : String) (thread : RawThread) : ThreadOut :=
  let topComment := (thread.snippet.bind (·.topLevelComment)).bind (·.snippet)
  { id := jsOrStr thread.id ""
    topLevelComment :=
      { id := jsOrStr ((thread.snippet.bind (·.topLevelComment)).bind (·.id)) ""
        authorDisplayName := jsOrStr (topComment.bind (·.authorDisplayName)) "Unknown"
        authorProfileImageUrl := jsOrStr (topComment.bind (·.authorProfileImageUrl)) ""
        authorChannelId := jsOrStr (rawThreadTopAuthor thread) ""
        textDisplay := jsOrStr (topComment.bind (·.textDisplay)) ""
        textOriginal := jsOrStr (topComment.bind (·.textOriginal)) ""
        likeCount := jsOrNat (topComment.bind (·.likeCount)) 0
        publishedAt := jsOrStr (topComment.bind (·.publishedAt)) ""
        updatedAt := jsOrStr (topComment.bind (·.updatedAt)) ""
        canDelete := rawThreadTopAuthor thread = some userChannelId }
    totalReplyCount := jsOrNat (thread.snippet.bind (·.totalReplyCount)) 0
    replies := (rawThreadReplies thread).map (mapReply userChannelId) }

/-- `CommentService.getComments`, as a function of the successful provider
responses: the `channels.list` items, the `commentThreads.list` items and the
response's `nextPageToken`. -/
def getComments (channelItems : Option (List RawChannel))
    (threadItems : Option (List RawThread)) (nextPageToken : Option String) :
    GetCommentsOut :=
  let userChannelId := jsOrStr ((channelItems.bind (·.head?)).bind (·.id)) ""
  { comments := (threadItems.getD []).map (mapThread userChannelId)
    nextPageToken :=
      match nextPageToken with
      | none => none
      | some s => if s = "" then none else some s
    userChannelId := userChannelId }

/-! ## Concrete fixtures shared by the claim instances -/

/-- A valid 32-byte key in its 64-character hex form (all zeros). -/
def key0 : List Nat := List.replicate 64 48

/-- A 16-byte IV (all zeros), as `crypto.randomBytes(16)` could draw. -/
def iv0 : List Nat := List.replicate 16 0

/-- The envelope `encrypt` produces for the empty secret under `key0`/`iv0`
(the source stores exactly this when Google returns no refresh token). -/
def encEmptyEnv : List Nat := ((encrypt key0 iv0 []).toOption).getD []

/-- The envelope of the one-byte access secret `"A"`. -/
def encAccessEnv : List Nat := ((encrypt key0 iv0 [65]).toOption).getD []

/-- The envelope of the one-byte refresh secret `"R"`. -/
def encRefreshEnv : List Nat := ((encrypt key0 iv0 [82]).toOption).getD []

/-- A stored credential whose access secret expired at epoch 0 and whose
refresh secret decrypts to `"R"`. -/
def staleRecord : TokenRecord :=
  { accessToken := encAccessEnv, refreshToken := encRefreshEnv
    accessTokenExpiresAt := 0, scope := [] }

/-- A successful token-exchange response carrying a fresh access secret and
no rotated refresh secret. -/
def freshCreds : Credentials :=
  { access_token := some [65], refresh_token := none, expiry_date := some 7200000 }

/-- The concrete user of the C6 scenario. -/
def userC6 : JwtPayload := ⟨"u1", "u1@example.com", "g1"⟩

/-- A token issued at 0 with a 10-second expiry. -/
def tokenC6 : SignedToken := jwtSign "topsecret" userC6 0 10

/-- The same token with its signature altered. -/
def tamperedC6 : SignedToken := { tokenC6 with sig := "X" ++ tokenC6.sig }

/-- The concrete comment of the C9 scenario: its author channel differs from
the caller's. -/
def commentC9 : RawComment :=
  { id := some "c1"
    snippet := some { authorDisplayName := none
                      authorProfileImageUrl := none
                      authorChannelId := some ⟨some "chAuthor"⟩
                      textDisplay := none, textOriginal := none
                      likeCount := none, publishedAt := none
                      updatedAt := none } }

/-- A comment snippet with no author channel id. -/
def snippetNoAuthor : RawCommentSnippet :=
  { authorDisplayName := none, authorProfileImageUrl := none
    authorChannelId := none, textDisplay := none, textOriginal := none
    likeCount := none, publishedAt := none, updatedAt := none }

/-- A comment thread whose top-level comment has no author channel id. -/
def threadC10 : RawThread :=
  { id := some "t1"
    snippet := some { topLevelComment := some { id := some "c1"
                                                snippet := some snippetNoAuthor }
                      totalReplyCount := some 0 }
    replies := none }

/-- The envelope of the one-byte secret 0xAB under `key0`/`iv0`; its
ciphertext segment is the two hex letters "ab". -/
def envAB : List Nat := ((encrypt key0 iv0 [171]).toOption).getD []

/-! ## Codec lemmas -/

theorem hexDigitChar_ne_colon {n : Nat} (h : n ≤ 15) : hexDigitChar n ≠ colon := by
  interval_cases n <;> decide

theorem colon_not_mem_bytesToHex {l : List Nat} (h : ∀ b ∈ l, b < 256) :
    colon ∉ bytesToHex l := by
  induction l with
  | nil => simp [bytesToHex]
  | cons b rest ih =>
    have hb : b < 256 := h b (List.mem_cons_self b rest)
    have hrest : ∀ x ∈ rest, x < 256 := fun x hx => h x (List.mem_cons_of_mem b hx)
    simp only [bytesToHex, byteToHex, List.cons_append, List.nil_append,
      List.mem_cons]
    intro hmem
    rcases hmem with h1 | h1 | h1
    · exact hexDigitChar_ne_colon (show b / 16 ≤ 15 by omega) h1.symm
    · exact hexDigitChar_ne_colon (show b % 16 ≤ 15 by omega) h1.symm
    · exact ih hrest h1

theorem splitOnColon_no_colon {a : List Nat} (h : colon ∉ a) :
    splitOnColon a = [a] := by
  induction a with
  | nil => rfl
  | cons c rest ih =>
    have hc : c ≠ colon := fun hc => h (hc ▸ List.mem_cons_self c rest)
    have hrest : colon ∉ rest := fun hm => h (List.mem_cons_of_mem c hm)
    simp [splitOnColon, ih hrest, hc]

theorem splitOnColon_ne_nil (l : List Nat) : splitOnColon l ≠ [] := by
  cases l with
  | nil => simp [splitOnColon]
  | cons c rest =>
    simp only [splitOnColon]
    rcases h : splitOnColon rest with _ | ⟨s, ss⟩
    · simp
    · by_cases hc : c = colon <;> simp [hc]

theorem splitOnColon_append {a : List Nat} (r : List Nat) (h : colon ∉ a) :
    splitOnColon (a ++ colon :: r) = a :: splitOnColon r := by
  induction a with
  | nil =>
    simp only [List.nil_append, splitOnColon]
    rcases hr : splitOnColon r with _ | ⟨s, ss⟩
    · exact absurd hr (splitOnColon_ne_nil r)
    · simp
  | cons c rest ih =>
    have hc : c ≠ colon := fun hc => h (hc ▸ List.mem_cons_self c rest)
    have hrest : colon ∉ rest := fun hm => h (List.mem_cons_of_mem c hm)
    simp only [List.cons_append, splitOnColon, List.append_eq, ih hrest, hc,
      if_false]

theorem hexVal_hexDigitChar {n : Nat} (h : n ≤ 15) :
    hexVal (hexDigitChar n) = some n := by
  interval_cases n <;> decide

theorem hexVal_le {c v : Nat} (h : hexVal c = some v) : v ≤ 15 := by
  unfold hexVal at h
  repeat' split at h
  all_goals cases h
  all_goals omega

theorem hexToBytes_bytesToHex {l : List Nat} (h : ∀ b ∈ l, b < 256) :
    hexToBytes (bytesToHex l) = l := by
  induction l with
  | nil => rfl
  | cons b rest ih =>
    have hb : b < 256 := h b (List.mem_cons_self b rest)
    have hrest : ∀ x ∈ rest, x < 256 := fun x hx => h x (List.mem_cons_of_mem b hx)
    simp only [bytesToHex, byteToHex, List.cons_append, List.append_eq,
      List.nil_append, hexToBytes,
      hexVal_hexDigitChar (show b / 16 ≤ 15 by omega),
      hexVal_hexDigitChar (show b % 16 ≤ 15 by omega)]
    rw [ih hrest]
    congr 1
    omega

theorem bytesToHex_length (l : List Nat) : (bytesToHex l).length = 2 * l.length := by
  induction l with
  | nil => rfl
  | cons b rest ih =>
    simp only [bytesToHex, byteToHex, List.length_append, List.length_cons,
      List.length_nil, List.length_cons] at *
    omega

theorem xorKs_involution (keyBuffer iv : List Nat) :
    ∀ (i : Nat) (l : List Nat), xorKs keyBuffer iv i (xorKs keyBuffer iv i l) = l := by
  intro i l
  induction l generalizing i with
  | nil => rfl
  | cons b rest ih => simp [xorKs, ih, Nat.xor_cancel_right]

theorem xorKs_lt (keyBuffer iv : List Nat) :
    ∀ (i : Nat) (l : List Nat), (∀ b ∈ l, b < 256) →
      ∀ b ∈ xorKs keyBuffer iv i l, b < 256 := by
  intro i l
  induction l generalizing i with
  | nil => simp [xorKs]
  | cons b rest ih =>
    intro h x hx
    simp only [xorKs, List.mem_cons] at hx
    rcases hx with hx | hx
    · subst hx
      have hb : b < 256 := h b (List.mem_cons_self b rest)
      have hk : ksByte keyBuffer iv i < 256 := Nat.mod_lt _ (by omega)
      calc b ^^^ ksByte keyBuffer iv i < 2 ^ 8 :=
            Nat.xor_lt_two_pow (by omega) (by omega)
        _ = 256 := by norm_num
    · exact ih (i + 1) (fun y hy => h y (List.mem_cons_of_mem b hy)) x hx

theorem xorKs_length (keyBuffer iv : List Nat) :
    ∀ (i : Nat) (l : List Nat), (xorKs keyBuffer iv i l).length = l.length := by
  intro i l
  induction l generalizing i with
  | nil => rfl
  | cons b rest ih => simp [xorKs, ih]

theorem gcmTag_lt {iv ct : List Nat} (hiv : ∀ b ∈ iv, b < 256)
    (hct : ∀ b ∈ ct, b < 256) : ∀ b ∈ gcmTag iv ct, b < 256 := by
  intro b hb
  simp only [gcmTag, List.mem_append, List.mem_replicate, List.mem_cons] at hb
  rcases hb with ⟨-, h⟩ | h | h | h
  · omega
  · omega
  · exact hiv b h
  · exact hct b h

theorem gcmTag_ne_nil (iv ct : List Nat) : gcmTag iv ct ≠ [] := by
  simp only [gcmTag]
  intro h
  have := congrArg List.length h
  simp at this

/-- Splitting the envelope that `encrypt` emits recovers its three hex
segments. -/
theorem splitOnColon_envelope {ivh tagh cth : List Nat} (h1 : colon ∉ ivh)
    (h2 : colon ∉ tagh) (h3 : colon ∉ cth) :
    splitOnColon (ivh ++ colon :: tagh ++ colon :: cth) = [ivh, tagh, cth] := by
  rw [List.append_assoc, List.cons_append, splitOnColon_append _ h1,
    splitOnColon_append _ h2, splitOnColon_no_colon h3]

theorem bytesToHex_ne_nil {l : List Nat} (h : l ≠ []) : bytesToHex l ≠ [] := by
  cases l with
  | nil => exact absurd rfl h
  | cons b rest => simp [bytesToHex, byteToHex]

theorem jsFalsy_some_ne {l : List Nat} (h : l ≠ []) : jsFalsy (some l) = false := by
  cases l with
  | nil => exact absurd rfl h
  | cons b rest => rfl

/-- Successful `encrypt` pins down the key checks and the envelope shape. -/
theorem encrypt_ok_elim {key iv text env : List Nat}
    (h : encrypt key iv text = .ok env) :
    key.length = 64 ∧ (hexToBytes key).length = 32 ∧
      env = bytesToHex iv ++ colon ::
        bytesToHex (gcmTag iv (xorKs (hexToBytes key) iv 0 text)) ++ colon ::
        bytesToHex (xorKs (hexToBytes key) iv 0 text) := by
  simp only [encrypt] at h
  split at h
  · cases h
  · split at h
    · cases h
    · rename_i h1 h2
      injection h with h3
      exact ⟨not_not.mp h1, not_not.mp h2, h3.symm⟩

/-- Decryption inverts encryption for nonempty plaintexts. -/
theorem decrypt_encrypt {key iv text env : List Nat}
    (hiv : iv ≠ []) (hivb : ∀ b ∈ iv, b < 256) (htb : ∀ b ∈ text, b < 256)
    (hne : text ≠ []) (henc : encrypt key iv text = .ok env) :
    decrypt key env = .ok text := by
  obtain ⟨h64, h32, henv⟩ := encrypt_ok_elim henc
  have hctb : ∀ b ∈ xorKs (hexToBytes key) iv 0 text, b < 256 :=
    xorKs_lt _ _ _ _ htb
  have htagb := gcmTag_lt hivb hctb
  have hA : colon ∉ bytesToHex iv := colon_not_mem_bytesToHex hivb
  have hB := colon_not_mem_bytesToHex htagb
  have hC := colon_not_mem_bytesToHex hctb
  have hctne : xorKs (hexToBytes key) iv 0 text ≠ [] := by
    intro hx
    have := xorKs_length (hexToBytes key) iv 0 text
    rw [hx] at this
    exact hne (List.length_eq_zero.mp this.symm)
  subst henv
  simp only [decrypt, splitOnColon_envelope hA hB hC, List.get?,
    jsFalsy_some_ne (bytesToHex_ne_nil hiv),
    jsFalsy_some_ne (bytesToHex_ne_nil (gcmTag_ne_nil iv _)),
    jsFalsy_some_ne (bytesToHex_ne_nil hctne), or_self, Bool.false_eq_true,
    or_false, if_false, Option.getD_some]
  rw [if_neg (not_not_intro h64), if_neg (not_not_intro h32),
    hexToBytes_bytesToHex hivb, hexToBytes_bytesToHex htagb,
    hexToBytes_bytesToHex hctb, if_pos rfl, xorKs_involution]

/-- Decrypting the encryption of the empty secret fails on the source's
envelope-format check, because the ciphertext segment is empty. -/
theorem decrypt_encrypt_nil {key iv env : List Nat} (hivb : ∀ b ∈ iv, b < 256)
    (henc : encrypt key iv [] = .ok env) :
    decrypt key env = .error "Invalid encrypted text format" := by
  obtain ⟨h64, h32, henv⟩ := encrypt_ok_elim henc
  have htagb := gcmTag_lt hivb (show ∀ b ∈ xorKs (hexToBytes key) iv 0 [], b < 256 by
    simp [xorKs])
  have hA : colon ∉ bytesToHex iv := colon_not_mem_bytesToHex hivb
  have hB := colon_not_mem_bytesToHex htagb
  have hC : colon ∉ bytesToHex (xorKs (hexToBytes key) iv 0 []) := by
    simp [xorKs, bytesToHex]
  subst henv
  simp only [decrypt, splitOnColon_envelope hA hB hC, List.get?]
  rw [if_neg (not_not_intro h64)]
  simp [xorKs, bytesToHex, jsFalsy]

/-! ## C1 — refresh coalescing -/

theorem refreshAccessToken_calls {key ivA ivR : List Nat} {now : Int}
    {enc : List Nat} {resp : Except String Credentials} {old : TokenRecord}
    {rt : List Nat} (hdec : decrypt key enc = .ok rt) :
    (refreshAccessToken key ivA ivR now enc resp old).refreshCalls = 1 := by
  simp only [refreshAccessToken, hdec]
  rcases resp with e | creds
  · rfl
  · rcases creds with ⟨at?, rt?, ed?⟩
    rcases at? with _ | a
    · rfl
    · dsimp only
      repeat' split
      all_goals rfl

/-- C1, counterexample: with a stale credential whose refresh secret decrypts
fine, two concurrent `getValidAccessToken` callers that both pass their
initial store read before either refresh completes perform two provider
refresh exchanges, not exactly one — the source has no coalescing. -/
theorem C1_counterexample :
    (runTwoConcurrent key0 iv0 iv0 iv0 iv0 1000000 (some staleRecord)
        (.ok freshCreds) (.ok freshCreds)).1.refreshCalls +
      (runTwoConcurrent key0 iv0 iv0 iv0 iv0 1000000 (some staleRecord)
        (.ok freshCreds) (.ok freshCreds)).2.1.refreshCalls = 2 ∧
    (runTwoConcurrent key0 iv0 iv0 iv0 iv0 1000000 (some staleRecord)
        (.ok freshCreds) (.ok freshCreds)).1.refreshCalls +
      (runTwoConcurrent key0 iv0 iv0 iv0 iv0 1000000 (some staleRecord)
        (.ok freshCreds) (.ok freshCreds)).2.1.refreshCalls ≠ 1 := by
  constructor
  · rfl
  · intro hc
    rw [show (runTwoConcurrent key0 iv0 iv0 iv0 iv0 1000000 (some staleRecord)
        (.ok freshCreds) (.ok freshCreds)).1.refreshCalls +
      (runTwoConcurrent key0 iv0 iv0 iv0 iv0 1000000 (some staleRecord)
        (.ok freshCreds) (.ok freshCreds)).2.1.refreshCalls = 2 from rfl] at hc
    exact absurd hc (by decide)

/-- C1, amended: `getValidAccessToken` performs no coalescing, so each of two
concurrent callers that both observe the same stale credential (and whose
stored refresh secret decrypts) performs its own provider refresh exchange:
two exchanges in total instead of the single coalesced one the claim
requires. -/
theorem C1_no_coalescing (key iv1A iv1R iv2A iv2R : List Nat) (now : Int)
    (r : TokenRecord) (resp1 resp2 : Except String Credentials) (rt : List Nat)
    (hstale : r.accessTokenExpiresAt - now < 5 * 60 * 1000)
    (hdec : decrypt key r.refreshToken = .ok rt) :
    (runTwoConcurrent key iv1A iv1R iv2A iv2R now (some r) resp1 resp2).1.refreshCalls = 1 ∧
    (runTwoConcurrent key iv1A iv1R iv2A iv2R now (some r) resp1 resp2).2.1.refreshCalls = 1 ∧
    (runTwoConcurrent key iv1A iv1R iv2A iv2R now (some r) resp1 resp2).1.refreshCalls +
      (runTwoConcurrent key iv1A iv1R iv2A iv2R now (some r) resp1 resp2).2.1.refreshCalls = 2 := by
  have h1 : (runTwoConcurrent key iv1A iv1R iv2A iv2R now (some r) resp1 resp2).1 =
      refreshAccessToken key iv1A iv1R now r.refreshToken resp1 r := by
    simp only [runTwoConcurrent, getValidAccessTokenFrom]
    rw [if_pos (by omega)]
  have h2 : (runTwoConcurrent key iv1A iv1R iv2A iv2R now (some r) resp1 resp2).2.1 =
      refreshAccessToken key iv2A iv2R now r.refreshToken resp2 r := by
    simp only [runTwoConcurrent, getValidAccessTokenFrom]
    rw [if_pos (by omega)]
  rw [h1, h2, refreshAccessToken_calls hdec, refreshAccessToken_calls hdec]
  exact ⟨rfl, rfl, rfl⟩

/-- C1, witness for the amended theorem at the concrete stale credential. -/
theorem C1_no_coalescing_witness :
    (staleRecord.accessTokenExpiresAt - 1000000 < 5 * 60 * 1000 ∧
      decrypt key0 staleRecord.refreshToken = .ok [82]) ∧
    (runTwoConcurrent key0 iv0 iv0 iv0 iv0 1000000 (some staleRecord)
        (.ok freshCreds) (.ok freshCreds)).1.refreshCalls +
      (runTwoConcurrent key0 iv0 iv0 iv0 iv0 1000000 (some staleRecord)
        (.ok freshCreds) (.ok freshCreds)).2.1.refreshCalls = 2 :=
  ⟨⟨by decide, by rfl⟩,
    (C1_no_coalescing key0 iv0 iv0 iv0 iv0 1000000 staleRecord
      (.ok freshCreds) (.ok freshCreds) [82] (by decide) (by rfl)).2.2⟩

/-! ## C3 — fresh path -/

/-- C3: for a stored credential with remaining lifetime strictly above the
five-minute buffer, `getValidAccessToken` returns the decryption of the
stored access secret, performs no refresh exchange and writes nothing to the
store. -/
theorem C3_fresh_path (key ivA ivR : List Nat) (now : Int) (r : TokenRecord)
    (resp : Except String Credentials)
    (h : r.accessTokenExpiresAt - now > 5 * 60 * 1000) :
    getValidAccessToken key ivA ivR now (some r) resp =
      { result := decrypt key r.accessToken, refreshCalls := 0,
        storeWrite := none } := by
  simp only [getValidAccessToken, getValidAccessTokenFrom]
  rw [if_neg (by omega)]

/-- C3, witness at a concrete fresh credential. -/
theorem C3_fresh_path_witness :
    ((10000000 : Int) - 1000 > 5 * 60 * 1000) ∧
    getValidAccessToken key0 iv0 iv0 1000
        (some { accessToken := encAccessEnv, refreshToken := encRefreshEnv
                accessTokenExpiresAt := 10000000, scope := [] })
        (.error "unreached") =
      { result := decrypt key0 encAccessEnv, refreshCalls := 0,
        storeWrite := none } :=
  ⟨by norm_num,
    C3_fresh_path key0 iv0 iv0 1000
      { accessToken := encAccessEnv, refreshToken := encRefreshEnv
        accessTokenExpiresAt := 10000000, scope := [] }
      (.error "unreached") (by norm_num)⟩

/-! ## C4 — stale credential with empty refresh secret -/

/-- C4, counterexample: with a stale access secret and a stored refresh
secret that is the encryption of the empty string, `getValidAccessToken`
fails with the codec's plain "Invalid encrypted text format" error (which the
global handler surfaces as a generic 500), not with any
reauthorization-required error; no refresh call and no store write happen. -/
theorem C4_counterexample :
    getValidAccessToken key0 iv0 iv0 1000000
        (some { accessToken := encAccessEnv, refreshToken := encEmptyEnv
                accessTokenExpiresAt := 0, scope := [] })
        (.ok freshCreds) =
      { result := .error "Invalid encrypted text format", refreshCalls := 0,
        storeWrite := none } := by
  rfl

/-- C4, amended: for every stale credential whose stored refresh secret is
the encryption of the empty secret, `getValidAccessToken` throws the plain
`Error "Invalid encrypted text format"` from `decrypt` (surfaced as a generic
500 rather than `ReauthorizationRequired`), performs no refresh exchange, and
leaves the store unmodified. -/
theorem C4_empty_refresh_secret (key iv ivA ivR : List Nat) (now : Int)
    (r : TokenRecord) (resp : Except String Credentials)
    (hivb : ∀ b ∈ iv, b < 256)
    (henv : encrypt key iv [] = .ok r.refreshToken)
    (hstale : r.accessTokenExpiresAt - now < 5 * 60 * 1000) :
    getValidAccessToken key ivA ivR now (some r) resp =
      { result := .error "Invalid encrypted text format", refreshCalls := 0,
        storeWrite := none } := by
  simp only [getValidAccessToken, getValidAccessTokenFrom]
  rw [if_pos (by omega)]
  simp only [refreshAccessToken, decrypt_encrypt_nil hivb henv]

/-- C4, witness for the amended theorem. -/
theorem C4_empty_refresh_secret_witness :
    ((∀ b ∈ iv0, b < 256) ∧ encrypt key0 iv0 [] = .ok encEmptyEnv ∧
      (0 : Int) - 1000000 < 5 * 60 * 1000) ∧
    getValidAccessToken key0 iv0 iv0 1000000
        (some { accessToken := encAccessEnv, refreshToken := encEmptyEnv
                accessTokenExpiresAt := 0, scope := [] })
        (.ok freshCreds) =
      { result := .error "Invalid encrypted text format", refreshCalls := 0,
        storeWrite := none } :=
  ⟨⟨by decide, by rfl, by norm_num⟩,
    C4_empty_refresh_secret key0 iv0 iv0 iv0 1000000
      { accessToken := encAccessEnv, refreshToken := encEmptyEnv
        accessTokenExpiresAt := 0, scope := [] }
      (.ok freshCreds) (by decide) (by rfl) (by norm_num)⟩

/-! ## C5 / C8 — error classifier -/

/-- C5, counterexample: the classifier sends a status-404 provider error and
a status-401 provider error to the generic 500 reply — the UpstreamError
kind — not to ResourceNotFound / ReauthorizationRequired as claimed. -/
theorem C5_counterexample :
    handleYouTubeQuotaError ⟨some ⟨some 404, none⟩⟩ =
      ⟨500, "An error occurred with the YouTube API"⟩ ∧
    specKindOfStatus (handleYouTubeQuotaError ⟨some ⟨some 404, none⟩⟩).statusCode ≠
      DomainKind.resourceNotFound ∧
    handleYouTubeQuotaError ⟨some ⟨some 401, none⟩⟩ =
      ⟨500, "An error occurred with the YouTube API"⟩ ∧
    specKindOfStatus (handleYouTubeQuotaError ⟨some ⟨some 401, none⟩⟩).statusCode ≠
      DomainKind.reauthorizationRequired :=
  ⟨rfl, by decide, rfl, by decide⟩

/-- C5, amended: every provider error whose status is not 403 — including 404
and 401 — is classified as the generic 500 reply, i.e. the UpstreamError
kind; the classifier never produces ResourceNotFound or
ReauthorizationRequired. -/
theorem C5_non403_upstream (e : ProviderError)
    (h : e.response.bind (·.status) ≠ some 403) :
    handleYouTubeQuotaError e = ⟨500, "An error occurred with the YouTube API"⟩ ∧
    specKindOfStatus (handleYouTubeQuotaError e).statusCode =
      DomainKind.upstreamError := by
  have h1 : handleYouTubeQuotaError e =
      ⟨500, "An error occurred with the YouTube API"⟩ := by
    simp only [handleYouTubeQuotaError, if_neg h]
  exact ⟨h1, by rw [h1]; rfl⟩

/-- C5, witness for the amended theorem at a 404 provider error. -/
theorem C5_non403_upstream_witness :
    ((⟨some ⟨some 404, none⟩⟩ : ProviderError).response.bind (·.status) ≠ some 403) ∧
    handleYouTubeQuotaError ⟨some ⟨some 404, none⟩⟩ =
      ⟨500, "An error occurred with the YouTube API"⟩ ∧
    specKindOfStatus (handleYouTubeQuotaError ⟨some ⟨some 404, none⟩⟩).statusCode =
      DomainKind.upstreamError :=
  ⟨by decide, C5_non403_upstream ⟨some ⟨some 404, none⟩⟩ (by decide)⟩

/-- C8: the classifier is total (it is a function) and maps 403 with reason
"quotaExceeded" to the 429 quota reply (QuotaExceeded kind), 403 with reason
"forbidden" to the 403 permission reply (PermissionDenied kind), and every
other input — any other status, a missing reason, or an unrecognized
reason — to the generic 500 reply (UpstreamError kind). -/
theorem C8_classifier_total (e : ProviderError) :
    (e.response.bind (·.status) = some 403 →
      providerReason e = some "quotaExceeded" →
      handleYouTubeQuotaError e =
        ⟨429, "YouTube API quota exceeded. Please try again later."⟩ ∧
      specKindOfStatus (handleYouTubeQuotaError e).statusCode =
        DomainKind.quotaExceeded) ∧
    (e.response.bind (·.status) = some 403 →
      providerReason e = some "forbidden" →
      handleYouTubeQuotaError e =
        ⟨403, "You do not have permission to perform this action."⟩ ∧
      specKindOfStatus (handleYouTubeQuotaError e).statusCode =
        DomainKind.permissionDenied) ∧
    (¬(e.response.bind (·.status) = some 403 ∧
        (providerReason e = some "quotaExceeded" ∨
          providerReason e = some "forbidden")) →
      handleYouTubeQuotaError e =
        ⟨500, "An error occurred with the YouTube API"⟩ ∧
      specKindOfStatus (handleYouTubeQuotaError e).statusCode =
        DomainKind.upstreamError) := by
  refine ⟨?_, ?_, ?_⟩
  · intro hs hr
    have h1 : handleYouTubeQuotaError e =
        ⟨429, "YouTube API quota exceeded. Please try again later."⟩ := by
      simp [handleYouTubeQuotaError, hs, hr]
    exact ⟨h1, by rw [h1]; rfl⟩
  · intro hs hr
    have h1 : handleYouTubeQuotaError e =
        ⟨403, "You do not have permission to perform this action."⟩ := by
      simp [handleYouTubeQuotaError, hs, hr]
    exact ⟨h1, by rw [h1]; rfl⟩
  · intro hother
    have h1 : handleYouTubeQuotaError e =
        ⟨500, "An error occurred with the YouTube API"⟩ := by
      by_cases hs : e.response.bind (·.status) = some 403
      · rcases hr : providerReason e with _ | r
        · simp [handleYouTubeQuotaError, hs, hr]
        · have hq : r ≠ "quotaExceeded" := by
            intro hrq
            exact hother ⟨hs, Or.inl (by rw [hr, hrq])⟩
          have hf : r ≠ "forbidden" := by
            intro hrf
            exact hother ⟨hs, Or.inr (by rw [hr, hrf])⟩
          simp [handleYouTubeQuotaError, hs, hr, hq, hf]
      · simp [handleYouTubeQuotaError, hs]
    exact ⟨h1, by rw [h1]; rfl⟩

/-- C8, witness: the three branches evaluated at concrete provider errors. -/
theorem C8_classifier_total_witness :
    handleYouTubeQuotaError
        ⟨some ⟨some 403, some ⟨some ⟨some [⟨some "quotaExceeded"⟩]⟩⟩⟩⟩ =
      ⟨429, "YouTube API quota exceeded. Please try again later."⟩ ∧
    handleYouTubeQuotaError
        ⟨some ⟨some 403, some ⟨some ⟨some [⟨some "forbidden"⟩]⟩⟩⟩⟩ =
      ⟨403, "You do not have permission to perform this action."⟩ ∧
    handleYouTubeQuotaError ⟨some ⟨some 500, none⟩⟩ =
      ⟨500, "An error occurred with the YouTube API"⟩ ∧
    specKindOfStatus (handleYouTubeQuotaError ⟨some ⟨some 500, none⟩⟩).statusCode =
      DomainKind.upstreamError :=
  ⟨((C8_classifier_total
      ⟨some ⟨some 403, some ⟨some ⟨some [⟨some "quotaExceeded"⟩]⟩⟩⟩⟩).1
      (by decide) (by decide)).1,
    ((C8_classifier_total
      ⟨some ⟨some 403, some ⟨some ⟨some [⟨some "forbidden"⟩]⟩⟩⟩⟩).2.1
      (by decide) (by decide)).1,
    ((C8_classifier_total ⟨some ⟨some 500, none⟩⟩).2.2 (by decide)).1,
    ((C8_classifier_total ⟨some ⟨some 500, none⟩⟩).2.2 (by decide)).2⟩

/-! ## C6 — expired versus tampered session tokens -/

/-- C6: `authenticate` cannot distinguish its failure modes — a token issued
by `generateToken` whose expiry has elapsed is rejected with exactly the same
401 "Invalid token" reply as a token with an altered signature, because the
`instanceof JsonWebTokenError` check (which an expired token also satisfies,
`TokenExpiredError` being its subclass) runs before the dedicated
`TokenExpiredError` branch, leaving that branch dead.  This contradicts the
claim that the two failures are distinguishable. -/
theorem C6_expired_token_indistinguishable :
    generateToken (some "topsecret") userC6 0 10 = .ok tokenC6 ∧
    authenticate (some "topsecret") (fun _ => true) 100 (some tokenC6) =
      .error (.api ⟨401, "Invalid token"⟩) ∧
    authenticate (some "topsecret") (fun _ => true) 100 (some tamperedC6) =
      .error (.api ⟨401, "Invalid token"⟩) ∧
    authenticate (some "topsecret") (fun _ => true) 100 (some tokenC6) =
      authenticate (some "topsecret") (fun _ => true) 100 (some tamperedC6) := by
  refine ⟨rfl, ?_, ?_, ?_⟩ <;> decide

/-! ## C9 — comment deletion ownership check -/

/-- C9: when the comment looked up before deletion has an author channel id
different from the caller's channel id, `deleteComment` fails with the 403
"You can only delete your own comments" reply (the PermissionDenied kind) and
the underlying `youtube.comments.delete` call is never issued. -/
theorem C9_delete_ownership (commentsItems : Option (List RawComment))
    (channelItems : Option (List RawChannel)) (c : RawComment)
    (hc : commentsItems.bind (·.head?) = some c)
    (hmismatch : rawCommentAuthor c ≠ (channelItems.bind (·.head?)).bind (·.id)) :
    deleteComment commentsItems channelItems =
      { result := .error ⟨403, "You can only delete your own comments"⟩
        deleteIssued := false } ∧
    specKindOfStatus 403 = DomainKind.permissionDenied := by
  refine ⟨?_, rfl⟩
  simp only [deleteComment, hc]
  rw [if_pos hmismatch]

/-- C9, witness at a concrete mismatching comment. -/
theorem C9_delete_ownership_witness :
    ((some [commentC9] : Option (List RawComment)).bind (·.head?) =
        some commentC9 ∧
      rawCommentAuthor commentC9 ≠
        ((some [(⟨some "chCaller"⟩ : RawChannel)] :
            Option (List RawChannel)).bind (·.head?)).bind (·.id)) ∧
    deleteComment (some [commentC9]) (some [⟨some "chCaller"⟩]) =
      { result := .error ⟨403, "You can only delete your own comments"⟩
        deleteIssued := false } :=
  ⟨⟨rfl, by decide⟩,
    (C9_delete_ownership (some [commentC9]) (some [⟨some "chCaller"⟩])
      commentC9 rfl (by decide)).1⟩

/-! ## C10 — canDelete flags in getComments -/

/-- C10, counterexample: for a caller without a channel (userChannelId
defaults to "") and a comment whose author channel id is absent, the returned
comment's authorChannelId field ("" after defaulting) equals the response's
userChannelId, yet canDelete is false — so canDelete is not "true exactly
when the comment's author channel id equals the user's channel id returned in
the same response". -/
theorem C10_counterexample :
    (getComments (some []) (some [threadC10]) none).userChannelId = "" ∧
    ((getComments (some []) (some [threadC10]) none).comments.map
      fun th => th.topLevelComment.authorChannelId) = [""] ∧
    ((getComments (some []) (some [threadC10]) none).comments.map
      fun th => th.topLevelComment.canDelete) = [false] :=
  ⟨rfl, rfl, rfl⟩

/-- C10, amended: each returned comment's canDelete flag is true exactly when
the provider-supplied author channel id is present and equal to the
response's userChannelId (the raw comparison, before the response's
authorChannelId field substitutes "" for an absent id — the two can disagree
when the id is absent and userChannelId is ""). -/
theorem C10_canDelete_raw (channelItems : Option (List RawChannel))
    (threadItems : Option (List RawThread)) (npt : Option String)
    (t : RawThread) (ht : t ∈ threadItems.getD []) :
    mapThread (getComments channelItems threadItems npt).userChannelId t ∈
      (getComments channelItems threadItems npt).comments ∧
    ((mapThread (getComments channelItems threadItems npt).userChannelId
        t).topLevelComment.canDelete = true ↔
      rawThreadTopAuthor t =
        some (getComments channelItems threadItems npt).userChannelId) ∧
    ∀ r ∈ rawThreadReplies t,
      ((mapReply (getComments channelItems threadItems npt).userChannelId
          r).canDelete = true ↔
        rawCommentAuthor r =
          some (getComments channelItems threadItems npt).userChannelId) := by
  refine ⟨?_, ?_, ?_⟩
  · exact List.mem_map_of_mem _ ht
  · simp [mapThread]
  · intro r hr
    simp [mapReply]

/-- C10, witness for the amended theorem: a matching author makes canDelete
true, and the flag agrees with the raw comparison. -/
theorem C10_canDelete_raw_witness :
    ((⟨some "t2"
       , some { topLevelComment := some
                  { id := some "c2"
                    snippet := some { snippetNoAuthor with
                                      authorChannelId := some ⟨some "chMe"⟩ } }
                totalReplyCount := some 0 }
       , none⟩ : RawThread) ∈
        ((some [(⟨some "t2"
           , some { topLevelComment := some
                      { id := some "c2"
                        snippet := some { snippetNoAuthor with
                                          authorChannelId := some ⟨some "chMe"⟩ } }
                    totalReplyCount := some 0 }
           , none⟩ : RawThread)] : Option (List RawThread)).getD [])) ∧
    ((mapThread (getComments (some [⟨some "chMe"⟩])
        (some [⟨some "t2"
           , some { topLevelComment := some
                      { id := some "c2"
                        snippet := some { snippetNoAuthor with
                                          authorChannelId := some ⟨some "chMe"⟩ } }
                    totalReplyCount := some 0 }
           , none⟩]) none).userChannelId
        ⟨some "t2"
           , some { topLevelComment := some
                      { id := some "c2"
                        snippet := some { snippetNoAuthor with
                                          authorChannelId := some ⟨some "chMe"⟩ } }
                    totalReplyCount := some 0 }
           , none⟩).topLevelComment.canDelete = true ↔
      rawThreadTopAuthor
          ⟨some "t2"
           , some { topLevelComment := some
                      { id := some "c2"
                        snippet := some { snippetNoAuthor with
                                          authorChannelId := some ⟨some "chMe"⟩ } }
                    totalReplyCount := some 0 }
           , none⟩ =
        some (getComments (some [⟨some "chMe"⟩])
          (some [⟨some "t2"
             , some { topLevelComment := some
                        { id := some "c2"
                          snippet := some { snippetNoAuthor with
                                            authorChannelId := some ⟨some "chMe"⟩ } }
                      totalReplyCount := some 0 }
             , none⟩]) none).userChannelId) :=
  ⟨by decide,
    (C10_canDelete_raw (some [⟨some "chMe"⟩]) _ none _ (by decide)).2.1⟩

/-! ## C7 — refresh-secret rotation frame -/

/-- C7: on a successful refresh exchange, the persisted row overwrites only
the access secret and its expiry (scope is untouched): when the provider
response carries no truthy new refresh secret the stored refresh secret is
kept verbatim, and when it does carry one, the stored refresh secret is
replaced by its encryption. -/
theorem C7_refresh_rotation_frame (key ivA ivR : List Nat) (now : Int)
    (r : TokenRecord) (creds : Credentials) (rt accessTok encAccess : List Nat)
    (hdec : decrypt key r.refreshToken = .ok rt)
    (hat : creds.access_token = some accessTok) (hne : accessTok ≠ [])
    (henc : encrypt key ivA accessTok = .ok encAccess) :
    (creds.refresh_token = none ∨ creds.refresh_token = some [] →
      refreshAccessToken key ivA ivR now r.refreshToken (.ok creds) r =
        { result := .ok accessTok, refreshCalls := 1
          storeWrite := some
            { accessToken := encAccess
              refreshToken := r.refreshToken
              accessTokenExpiresAt :=
                if jsTruthyInt creds.expiry_date then creds.expiry_date.getD 0
                else now + 3600000
              scope := r.scope } }) ∧
    (∀ newRt encRefresh, creds.refresh_token = some newRt → newRt ≠ [] →
      encrypt key ivR newRt = .ok encRefresh →
      refreshAccessToken key ivA ivR now r.refreshToken (.ok creds) r =
        { result := .ok accessTok, refreshCalls := 1
          storeWrite := some
            { accessToken := encAccess
              refreshToken := encRefresh
              accessTokenExpiresAt :=
                if jsTruthyInt creds.expiry_date then creds.expiry_date.getD 0
                else now + 3600000
              scope := r.scope } }) := by
  constructor
  · intro hkeep
    simp only [refreshAccessToken, hdec, hat]
    rw [if_neg hne, henc]
    rcases hkeep with hkeep | hkeep <;> rw [hkeep]
    rfl
  · intro newRt encRefresh h1 h2 h3
    simp only [refreshAccessToken, hdec, hat]
    rw [if_neg hne, henc, h1]
    dsimp only
    rw [if_neg h2, h3]

/-- C7, witness: the non-rotating and rotating cases at concrete data. -/
theorem C7_refresh_rotation_frame_witness :
    (decrypt key0 staleRecord.refreshToken = .ok [82] ∧
      freshCreds.access_token = some [65] ∧
      encrypt key0 iv0 [65] = .ok encAccessEnv) ∧
    refreshAccessToken key0 iv0 iv0 0 staleRecord.refreshToken (.ok freshCreds)
        staleRecord =
      { result := .ok [65], refreshCalls := 1
        storeWrite := some
          { accessToken := encAccessEnv
            refreshToken := staleRecord.refreshToken
            accessTokenExpiresAt := 7200000
            scope := staleRecord.scope } } ∧
    refreshAccessToken key0 iv0 iv0 0 staleRecord.refreshToken
        (.ok { freshCreds with refresh_token := some [82] }) staleRecord =
      { result := .ok [65], refreshCalls := 1
        storeWrite := some
          { accessToken := encAccessEnv
            refreshToken := encRefreshEnv
            accessTokenExpiresAt := 7200000
            scope := staleRecord.scope } } :=
  ⟨⟨by rfl, rfl, by rfl⟩,
    (C7_refresh_rotation_frame key0 iv0 iv0 0 staleRecord freshCreds [82] [65]
        encAccessEnv (by rfl) rfl (by decide) (by rfl)).1 (Or.inl rfl),
    (C7_refresh_rotation_frame key0 iv0 iv0 0 staleRecord
        { freshCreds with refresh_token := some [82] } [82] [65]
        encAccessEnv (by rfl) rfl (by decide) (by rfl)).2 [82] encRefreshEnv rfl
      (by decide) (by rfl)⟩

/-! ## Tamper analysis: structure of the ideal tag -/

theorem gcmTag_length (iv ct : List Nat) :
    (gcmTag iv ct).length = 2 * (iv.length + ct.length) + 1 := by
  simp only [gcmTag, List.length_append, List.length_replicate, List.length_cons]
  omega

theorem gcmTag_getElem?_lt {a b : List Nat} {i : Nat} (h : i < a.length + b.length) :
    (gcmTag a b)[i]? = some 1 := by
  rw [gcmTag, List.getElem?_append_left (by simpa using h),
    List.getElem?_replicate, if_pos h]

theorem gcmTag_getElem?_marker (a b : List Nat) :
    (gcmTag a b)[a.length + b.length]? = some 0 := by
  rw [gcmTag, List.getElem?_append_right (by simp)]
  simp

/-- A proper prefix of one ideal tag is never itself an ideal tag: the
leading unary length run plus the zero marker pin the total length down. -/
theorem take_gcmTag_ne_gcmTag {a b c d : List Nat} {p : Nat}
    (hp : p < (gcmTag a b).length) : (gcmTag a b).take p ≠ gcmTag c d := by
  intro h
  have hlen : p = (gcmTag c d).length := by
    have := congrArg List.length h
    rw [List.length_take] at this
    omega
  rcases Nat.lt_trichotomy (c.length + d.length) (a.length + b.length) with hc | hc | hc
  · have h1 : ((gcmTag a b).take p)[c.length + d.length]? = some 1 := by
      rw [List.getElem?_take_of_lt (by rw [hlen, gcmTag_length]; omega)]
      exact gcmTag_getElem?_lt hc
    rw [h, gcmTag_getElem?_marker] at h1
    cases h1
  · rw [gcmTag_length] at hp
    rw [gcmTag_length] at hlen
    omega
  · have h1 : ((gcmTag a b).take p)[a.length + b.length]? = some 0 := by
      rw [List.getElem?_take_of_lt (by rw [hlen, gcmTag_length]; omega)]
      exact gcmTag_getElem?_marker a b
    rw [h, gcmTag_getElem?_lt hc] at h1
    cases h1

/-- The ideal tag is injective once the IV lengths agree. -/
theorem gcmTag_inj_of_len {iv iv' ct ct' : List Nat}
    (hlen : iv.length = iv'.length) (h : gcmTag iv ct = gcmTag iv' ct') :
    iv = iv' ∧ ct = ct' := by
  have hl : ct.length = ct'.length := by
    have := congrArg List.length h
    rw [gcmTag_length, gcmTag_length] at this
    omega
  simp only [gcmTag] at h
  have h2 := (List.append_inj h (by simp [hlen, hl])).2
  have h3 : iv ++ ct = iv' ++ ct' := by
    injection h2
  exact ⟨(List.append_inj h3 hlen).1, (List.append_inj h3 hlen).2⟩

theorem hexToBytes_length_le : ∀ l : List Nat, 2 * (hexToBytes l).length ≤ l.length
  | [] => by simp [hexToBytes]
  | [c] => by simp [hexToBytes]
  | c1 :: c2 :: rest => by
    rcases h1 : hexVal c1 with _ | v1
    · simp [hexToBytes, h1]
    · rcases h2 : hexVal c2 with _ | v2
      · simp [hexToBytes, h1, h2]
      · have ih := hexToBytes_length_le rest
        simp only [hexToBytes, h1, h2, List.length_cons]
        omega

/-! ## Tamper analysis: decrypt evaluation helpers -/

/-- `decrypt` fails on the format check when the third split segment is
missing. -/
theorem decrypt_two_segments {key env X Y : List Nat} (h64 : key.length = 64)
    (hsplit : splitOnColon env = [X, Y]) :
    decrypt key env = .error "Invalid encrypted text format" := by
  simp only [decrypt, hsplit, List.get?]
  rw [if_neg (not_not_intro h64), if_pos (by simp [jsFalsy])]

/-- `decrypt` fails on the format check when one of the first three split
segments is empty. -/
theorem decrypt_empty_segment {key env X Y Z : List Nat}
    {rest : List (List Nat)} (h64 : key.length = 64)
    (hsplit : splitOnColon env = X :: Y :: Z :: rest)
    (h : X = [] ∨ Y = [] ∨ Z = []) :
    decrypt key env = .error "Invalid encrypted text format" := by
  simp only [decrypt, hsplit, List.get?]
  rw [if_neg (not_not_intro h64), if_pos]
  rcases h with h | h | h <;> subst h <;> simp [jsFalsy]

/-- `decrypt` fails on the authentication check when the recomputed tag does
not match. -/
theorem decrypt_auth_fail {key env X Y Z : List Nat} {rest : List (List Nat)}
    (h64 : key.length = 64) (h32 : (hexToBytes key).length = 32)
    (hsplit : splitOnColon env = X :: Y :: Z :: rest)
    (hX : X ≠ []) (hY : Y ≠ []) (hZ : Z ≠ [])
    (hmac : hexToBytes Y ≠ gcmTag (hexToBytes X) (hexToBytes Z)) :
    decrypt key env = .error "Unsupported state or unable to authenticate data" := by
  simp only [decrypt, hsplit, List.get?, jsFalsy_some_ne hX, jsFalsy_some_ne hY,
    jsFalsy_some_ne hZ, or_self, Bool.false_eq_true, or_false, if_false,
    Option.getD_some]
  rw [if_neg (not_not_intro h64), if_neg (not_not_intro h32), if_neg hmac]

/-! ## Tamper analysis: hex decoding of a modified rendering -/

/-- Decoding a prefix of a hex rendering yields the corresponding byte
prefix (a dangling final character is dropped, as in Node). -/
theorem hexToBytes_take_bytesToHex :
    ∀ (m : List Nat), (∀ x ∈ m, x < 256) →
      ∀ j, hexToBytes ((bytesToHex m).take j) = m.take (j / 2)
  | [], _, j => by simp [bytesToHex, hexToBytes]
  | x :: rest, hm, 0 => by simp [hexToBytes]
  | x :: rest, hm, 1 => by
    simp [bytesToHex, byteToHex, hexToBytes]
  | x :: rest, hm, (j + 2) => by
    have hx : x < 256 := hm x (List.mem_cons_self x rest)
    have hrest : ∀ y ∈ rest, y < 256 := fun y hy => hm y (List.mem_cons_of_mem x hy)
    have ih := hexToBytes_take_bytesToHex rest hrest j
    simp only [bytesToHex, byteToHex, List.cons_append, List.nil_append,
      List.take_succ_cons, hexToBytes,
      hexVal_hexDigitChar (show x / 16 ≤ 15 by omega),
      hexVal_hexDigitChar (show x % 16 ≤ 15 by omega), ih]
    rw [show (j + 2) / 2 = j / 2 + 1 by omega, List.take_succ_cons]
    congr 1
    omega

/-- Replacing one character of a hex rendering by a non-hex character
truncates the decode at that character's byte. -/
theorem hexToBytes_set_invalid :
    ∀ (m : List Nat), (∀ x ∈ m, x < 256) → ∀ (i b : Nat), hexVal b = none →
      i < 2 * m.length →
      hexToBytes ((bytesToHex m).set i b) = m.take (i / 2)
  | [], _, i, b, _, hi => by simp at hi
  | x :: rest, hm, 0, b, hb, _ => by
    simp only [bytesToHex, byteToHex, List.cons_append, List.nil_append,
      List.set_cons_zero, hexToBytes, hb]
    simp
  | x :: rest, hm, 1, b, hb, _ => by
    simp only [bytesToHex, byteToHex, List.cons_append, List.nil_append,
      List.set_cons_succ, List.set_cons_zero, hexToBytes,
      hexVal_hexDigitChar (show x / 16 ≤ 15 by
        have := hm x (List.mem_cons_self x rest); omega), hb]
    simp
  | x :: rest, hm, (i + 2), b, hb, hi => by
    have hx : x < 256 := hm x (List.mem_cons_self x rest)
    have hrest : ∀ y ∈ rest, y < 256 := fun y hy => hm y (List.mem_cons_of_mem x hy)
    have hi' : i < 2 * rest.length := by simp at hi; omega
    have ih := hexToBytes_set_invalid rest hrest i b hb hi'
    simp only [bytesToHex, byteToHex, List.cons_append, List.nil_append,
      List.set_cons_succ, hexToBytes,
      hexVal_hexDigitChar (show x / 16 ≤ 15 by omega),
      hexVal_hexDigitChar (show x % 16 ≤ 15 by omega), ih]
    rw [show (i + 2) / 2 = i / 2 + 1 by omega, List.take_succ_cons]
    congr 1
    omega

/-- Replacing one character of a hex rendering by a hex character of a
different value decodes to a byte string of the same length that differs
from the original. -/
theorem hexToBytes_set_valid :
    ∀ (m : List Nat), (∀ x ∈ m, x < 256) → ∀ (i b v : Nat), hexVal b = some v →
      i < 2 * m.length → hexVal b ≠ hexVal ((bytesToHex m).getD i 0) →
      (hexToBytes ((bytesToHex m).set i b)).length = m.length ∧
        hexToBytes ((bytesToHex m).set i b) ≠ m
  | [], _, i, b, v, _, hi, _ => by simp at hi
  | x :: rest, hm, 0, b, v, hb, _, hne => by
    have hx : x < 256 := hm x (List.mem_cons_self x rest)
    have hrest : ∀ y ∈ rest, y < 256 := fun y hy => hm y (List.mem_cons_of_mem x hy)
    have hvd : hexVal b ≠ hexVal (hexDigitChar (x / 16)) := by
      simpa [bytesToHex, byteToHex] using hne
    rw [hexVal_hexDigitChar (show x / 16 ≤ 15 by omega), hb] at hvd
    have hv15 := hexVal_le hb
    simp only [bytesToHex, byteToHex, List.cons_append, List.nil_append,
      List.set_cons_zero, hexToBytes, hb,
      hexVal_hexDigitChar (show x % 16 ≤ 15 by omega),
      hexToBytes_bytesToHex hrest]
    refine ⟨by simp [hexToBytes_bytesToHex hrest], ?_⟩
    intro hcontra
    have hhead : 16 * v + x % 16 = x := by
      have := List.head_eq_of_cons_eq hcontra
      omega
    exact hvd (by simp only [Option.some.injEq]; omega)
  | x :: rest, hm, 1, b, v, hb, _, hne => by
    have hx : x < 256 := hm x (List.mem_cons_self x rest)
    have hrest : ∀ y ∈ rest, y < 256 := fun y hy => hm y (List.mem_cons_of_mem x hy)
    have hvd : hexVal b ≠ hexVal (hexDigitChar (x % 16)) := by
      simpa [bytesToHex, byteToHex] using hne
    rw [hexVal_hexDigitChar (show x % 16 ≤ 15 by omega), hb] at hvd
    have hv15 := hexVal_le hb
    simp only [bytesToHex, byteToHex, List.cons_append, List.nil_append,
      List.set_cons_succ, List.set_cons_zero, hexToBytes, hb,
      hexVal_hexDigitChar (show x / 16 ≤ 15 by omega),
      hexToBytes_bytesToHex hrest]
    refine ⟨by simp [hexToBytes_bytesToHex hrest], ?_⟩
    intro hcontra
    have hhead : 16 * (x / 16) + v = x := by
      have := List.head_eq_of_cons_eq hcontra
      omega
    exact hvd (by simp only [Option.some.injEq]; omega)
  | x :: rest, hm, (i + 2), b, v, hb, hi, hne => by
    have hx : x < 256 := hm x (List.mem_cons_self x rest)
    have hrest : ∀ y ∈ rest, y < 256 := fun y hy => hm y (List.mem_cons_of_mem x hy)
    have hi' : i < 2 * rest.length := by simp at hi; omega
    have hne' : hexVal b ≠ hexVal ((bytesToHex rest).getD i 0) := by
      simpa [bytesToHex, byteToHex, List.getD_cons_succ] using hne
    have ih := hexToBytes_set_valid rest hrest i b v hb hi' hne'
    simp only [bytesToHex, byteToHex, List.cons_append, List.nil_append,
      List.set_cons_succ, hexToBytes,
      hexVal_hexDigitChar (show x / 16 ≤ 15 by omega),
      hexVal_hexDigitChar (show x % 16 ≤ 15 by omega)]
    refine ⟨by simpa using ih.1, ?_⟩
    intro hcontra
    have htail := List.tail_eq_of_cons_eq hcontra
    exact ih.2 htail

/-! ## Tamper analysis: flips by region of the envelope -/

/-- Overwriting the first delimiter merges the IV and tag segments; the
envelope then splits into two parts only and fails the format check. -/
theorem decryptFlip_colon1 {key iv ct : List Nat} (h64 : key.length = 64)
    (hivb : ∀ x ∈ iv, x < 256) (hctb : ∀ x ∈ ct, x < 256) {b : Nat}
    (hb : b ≠ colon) :
    decrypt key ((bytesToHex iv ++ b :: bytesToHex (gcmTag iv ct)) ++
        colon :: bytesToHex ct) = .error "Invalid encrypted text format" := by
  have htagb := gcmTag_lt hivb hctb
  have hmerge : colon ∉ bytesToHex iv ++ b :: bytesToHex (gcmTag iv ct) := by
    intro hmem
    rcases List.mem_append.mp hmem with h | h
    · exact colon_not_mem_bytesToHex hivb h
    · rcases List.mem_cons.mp h with h | h
      · exact hb h.symm
      · exact colon_not_mem_bytesToHex htagb h
  exact decrypt_two_segments h64
    (by rw [splitOnColon_append _ hmerge,
      splitOnColon_no_colon (colon_not_mem_bytesToHex hctb)])

/-- Overwriting the second delimiter merges the tag and ciphertext segments;
the envelope splits into two parts only and fails the format check. -/
theorem decryptFlip_colon2 {key iv ct : List Nat} (h64 : key.length = 64)
    (hivb : ∀ x ∈ iv, x < 256) (hctb : ∀ x ∈ ct, x < 256) {b : Nat}
    (hb : b ≠ colon) :
    decrypt key ((bytesToHex iv ++ colon :: bytesToHex (gcmTag iv ct)) ++
        b :: bytesToHex ct) = .error "Invalid encrypted text format" := by
  have htagb := gcmTag_lt hivb hctb
  have hmerge : colon ∉ bytesToHex (gcmTag iv ct) ++ b :: bytesToHex ct := by
    intro hmem
    rcases List.mem_append.mp hmem with h | h
    · exact colon_not_mem_bytesToHex htagb h
    · rcases List.mem_cons.mp h with h | h
      · exact hb h.symm
      · exact colon_not_mem_bytesToHex hctb h
  have hsplit : splitOnColon ((bytesToHex iv ++ colon :: bytesToHex (gcmTag iv ct)) ++
      b :: bytesToHex ct) =
      [bytesToHex iv, bytesToHex (gcmTag iv ct) ++ b :: bytesToHex ct] := by
    rw [List.append_assoc, List.cons_append,
      splitOnColon_append _ (colon_not_mem_bytesToHex hivb),
      splitOnColon_no_colon hmerge]
  exact decrypt_two_segments h64 hsplit

/-- A flip inside the IV segment (to a different character that does not
denote the same hex value) makes decryption fail: an inserted delimiter
re-segments the envelope into parts whose recomputed tag cannot match, an
invalid character truncates the decoded IV, and a different hex character
changes the decoded IV — all caught by the format or authentication check. -/
theorem decryptFlip_iv {key iv ct : List Nat} (h64 : key.length = 64)
    (h32 : (hexToBytes key).length = 32) (hiv16 : iv.length = 16)
    (hivb : ∀ x ∈ iv, x < 256) (hctb : ∀ x ∈ ct, x < 256) (hctne : ct ≠ [])
    {i b : Nat} (hi : i < 32)
    (hsem : hexVal b = none ∨ hexVal b ≠ hexVal ((bytesToHex iv).getD i 0)) :
    ∃ msg, decrypt key (((bytesToHex iv).set i b ++
        colon :: bytesToHex (gcmTag iv ct)) ++ colon :: bytesToHex ct) =
      .error msg := by
  have htagb := gcmTag_lt hivb hctb
  have hA := colon_not_mem_bytesToHex hivb
  have hB := colon_not_mem_bytesToHex htagb
  have hC := colon_not_mem_bytesToHex hctb
  have hAlen : (bytesToHex iv).length = 32 := by rw [bytesToHex_length, hiv16]
  have hctpos : 0 < ct.length := List.length_pos.mpr hctne
  have hTlen : (gcmTag iv ct).length = 2 * (16 + ct.length) + 1 := by
    rw [gcmTag_length, hiv16]
  by_cases hb58 : b = colon
  · subst hb58
    rw [List.set_eq_take_append_cons_drop, if_pos (by omega)]
    have htake : colon ∉ (bytesToHex iv).take i :=
      fun hm => hA (List.mem_of_mem_take hm)
    have hdrop : colon ∉ (bytesToHex iv).drop (i + 1) :=
      fun hm => hA (List.mem_of_mem_drop hm)
    have hsplit : splitOnColon ((((bytesToHex iv).take i ++
        colon :: (bytesToHex iv).drop (i + 1)) ++
          colon :: bytesToHex (gcmTag iv ct)) ++ colon :: bytesToHex ct) =
        [(bytesToHex iv).take i, (bytesToHex iv).drop (i + 1),
          bytesToHex (gcmTag iv ct), bytesToHex ct] := by
      simp only [List.append_assoc, List.cons_append]
      rw [splitOnColon_append _ htake, splitOnColon_append _ hdrop,
        splitOnColon_append _ hB, splitOnColon_no_colon hC]
    by_cases hi0 : i = 0
    · subst hi0
      exact ⟨_, decrypt_empty_segment h64 hsplit (Or.inl (List.take_zero _))⟩
    · by_cases hi31 : i = 31
      · subst hi31
        exact ⟨_, decrypt_empty_segment h64 hsplit
          (Or.inr (Or.inl (List.drop_eq_nil_of_le (by omega))))⟩
      · have hXne : (bytesToHex iv).take i ≠ [] := by
          intro hx
          have := congrArg List.length hx
          rw [List.length_take, hAlen] at this
          simp only [List.length_nil] at this
          omega
        have hYne : (bytesToHex iv).drop (i + 1) ≠ [] := by
          intro hx
          have := congrArg List.length hx
          rw [List.length_drop, hAlen] at this
          simp only [List.length_nil] at this
          omega
        have hZne : bytesToHex (gcmTag iv ct) ≠ [] :=
          bytesToHex_ne_nil (gcmTag_ne_nil iv ct)
        refine ⟨_, decrypt_auth_fail h64 h32 hsplit hXne hYne hZne ?_⟩
        intro heq
        have hlhs : 2 * (hexToBytes ((bytesToHex iv).drop (i + 1))).length ≤ 31 := by
          have h1 := hexToBytes_length_le ((bytesToHex iv).drop (i + 1))
          rw [List.length_drop, hAlen] at h1
          omega
        have hrhs := congrArg List.length heq
        rw [gcmTag_length, hexToBytes_bytesToHex htagb, hTlen] at hrhs
        omega
  · have hset : colon ∉ (bytesToHex iv).set i b := by
      intro hm
      rcases List.mem_or_eq_of_mem_set hm with h | h
      · exact hA h
      · exact hb58 h.symm
    have hsplit := @splitOnColon_envelope ((bytesToHex iv).set i b)
      (bytesToHex (gcmTag iv ct)) (bytesToHex ct) hset hB hC
    have hXne : (bytesToHex iv).set i b ≠ [] := by
      intro hx
      have := congrArg List.length hx
      rw [List.length_set, hAlen] at this
      simp at this
    refine ⟨_, decrypt_auth_fail h64 h32 hsplit hXne
      (bytesToHex_ne_nil (gcmTag_ne_nil iv ct)) (bytesToHex_ne_nil ?_) ?_⟩
    · exact hctne
    · rw [hexToBytes_bytesToHex htagb, hexToBytes_bytesToHex hctb]
      rcases hv : hexVal b with _ | v
      · rw [hexToBytes_set_invalid iv hivb i b hv (by omega)]
        intro heq
        have := congrArg List.length heq
        rw [gcmTag_length, gcmTag_length, List.length_take] at this
        omega
      · have hsem' : hexVal b ≠ hexVal ((bytesToHex iv).getD i 0) := by
          rcases hsem with h | h
          · rw [hv] at h
            cases h
          · exact h
        obtain ⟨hlen, hne⟩ :=
          hexToBytes_set_valid iv hivb i b v hv (by omega) hsem'
        intro heq
        exact hne (gcmTag_inj_of_len (by omega) heq).1.symm

/-- A flip inside the tag segment (to a different character that does not
denote the same hex value) makes decryption fail: the parsed tag becomes a
proper prefix of the true tag, a re-segmented fragment, or a same-length
different tag — none of which pass the authentication check. -/
theorem decryptFlip_tag {key iv ct : List Nat} (h64 : key.length = 64)
    (h32 : (hexToBytes key).length = 32) (hiv16 : iv.length = 16)
    (hivb : ∀ x ∈ iv, x < 256) (hctb : ∀ x ∈ ct, x < 256) (hctne : ct ≠ [])
    {j b : Nat} (hj : j < (bytesToHex (gcmTag iv ct)).length)
    (hsem : hexVal b = none ∨
      hexVal b ≠ hexVal ((bytesToHex (gcmTag iv ct)).getD j 0)) :
    ∃ msg, decrypt key ((bytesToHex iv ++
        colon :: (bytesToHex (gcmTag iv ct)).set j b) ++ colon :: bytesToHex ct) =
      .error msg := by
  have htagb := gcmTag_lt hivb hctb
  have hA := colon_not_mem_bytesToHex hivb
  have hB := colon_not_mem_bytesToHex htagb
  have hC := colon_not_mem_bytesToHex hctb
  have hAne : bytesToHex iv ≠ [] := bytesToHex_ne_nil (by
    intro hx
    rw [hx] at hiv16
    cases hiv16)
  have hBlen : (bytesToHex (gcmTag iv ct)).length = 2 * (gcmTag iv ct).length :=
    bytesToHex_length _
  have hTpos : 0 < (gcmTag iv ct).length := by
    rw [gcmTag_length]
    omega
  have hjdiv : j / 2 < (gcmTag iv ct).length := by omega
  by_cases hb58 : b = colon
  · subst hb58
    rw [List.set_eq_take_append_cons_drop, if_pos hj]
    have htake : colon ∉ (bytesToHex (gcmTag iv ct)).take j :=
      fun hm => hB (List.mem_of_mem_take hm)
    have hdrop : colon ∉ (bytesToHex (gcmTag iv ct)).drop (j + 1) :=
      fun hm => hB (List.mem_of_mem_drop hm)
    have hsplit : splitOnColon ((bytesToHex iv ++
        colon :: ((bytesToHex (gcmTag iv ct)).take j ++
          colon :: (bytesToHex (gcmTag iv ct)).drop (j + 1))) ++
            colon :: bytesToHex ct) =
        [bytesToHex iv, (bytesToHex (gcmTag iv ct)).take j,
          (bytesToHex (gcmTag iv ct)).drop (j + 1), bytesToHex ct] := by
      simp only [List.append_assoc, List.cons_append]
      rw [splitOnColon_append _ hA, splitOnColon_append _ htake,
        splitOnColon_append _ hdrop, splitOnColon_no_colon hC]
    by_cases hj0 : j = 0
    · subst hj0
      exact ⟨_, decrypt_empty_segment h64 hsplit
        (Or.inr (Or.inl (List.take_zero _)))⟩
    · by_cases hjlast : j = (bytesToHex (gcmTag iv ct)).length - 1
      · exact ⟨_, decrypt_empty_segment h64 hsplit
          (Or.inr (Or.inr (List.drop_eq_nil_of_le (by omega))))⟩
      · have hYne : (bytesToHex (gcmTag iv ct)).take j ≠ [] := by
          intro hx
          have := congrArg List.length hx
          rw [List.length_take] at this
          simp only [List.length_nil] at this
          omega
        have hZne : (bytesToHex (gcmTag iv ct)).drop (j + 1) ≠ [] := by
          intro hx
          have := congrArg List.length hx
          rw [List.length_drop] at this
          simp only [List.length_nil] at this
          omega
        refine ⟨_, decrypt_auth_fail h64 h32 hsplit hAne hYne hZne ?_⟩
        rw [hexToBytes_take_bytesToHex (gcmTag iv ct) htagb j,
          hexToBytes_bytesToHex hivb]
        exact take_gcmTag_ne_gcmTag hjdiv
  · have hset : colon ∉ (bytesToHex (gcmTag iv ct)).set j b := by
      intro hm
      rcases List.mem_or_eq_of_mem_set hm with h | h
      · exact hB h
      · exact hb58 h.symm
    have hsplit := @splitOnColon_envelope (bytesToHex iv)
      ((bytesToHex (gcmTag iv ct)).set j b) (bytesToHex ct) hA hset hC
    have hYne : (bytesToHex (gcmTag iv ct)).set j b ≠ [] := by
      intro hx
      have := congrArg List.length hx
      rw [List.length_set] at this
      simp only [List.length_nil] at this
      omega
    refine ⟨_, decrypt_auth_fail h64 h32 hsplit hAne hYne
      (bytesToHex_ne_nil hctne) ?_⟩
    rw [hexToBytes_bytesToHex hivb, hexToBytes_bytesToHex hctb]
    rcases hv : hexVal b with _ | v
    · rw [hexToBytes_set_invalid (gcmTag iv ct) htagb j b hv (by omega)]
      exact take_gcmTag_ne_gcmTag hjdiv
    · have hsem' : hexVal b ≠ hexVal ((bytesToHex (gcmTag iv ct)).getD j 0) := by
        rcases hsem with h | h
        · rw [hv] at h
          cases h
        · exact h
      obtain ⟨hlen, hne⟩ := hexToBytes_set_valid (gcmTag iv ct) htagb j b v hv
        (by omega) hsem'
      exact hne

/-- A flip inside the ciphertext segment (to a different character that does
not denote the same hex value) makes decryption fail: the parsed ciphertext
is truncated, re-segmented or changed, and in every case the stored tag no
longer authenticates it. -/
theorem decryptFlip_ct {key iv ct : List Nat} (h64 : key.length = 64)
    (h32 : (hexToBytes key).length = 32) (hiv16 : iv.length = 16)
    (hivb : ∀ x ∈ iv, x < 256) (hctb : ∀ x ∈ ct, x < 256) (hctne : ct ≠ [])
    {k b : Nat} (hk : k < (bytesToHex ct).length)
    (hsem : hexVal b = none ∨ hexVal b ≠ hexVal ((bytesToHex ct).getD k 0)) :
    ∃ msg, decrypt key ((bytesToHex iv ++ colon :: bytesToHex (gcmTag iv ct)) ++
        colon :: (bytesToHex ct).set k b) = .error msg := by
  have htagb := gcmTag_lt hivb hctb
  have hA := colon_not_mem_bytesToHex hivb
  have hB := colon_not_mem_bytesToHex htagb
  have hC := colon_not_mem_bytesToHex hctb
  have hAne : bytesToHex iv ≠ [] := bytesToHex_ne_nil (by
    intro hx
    rw [hx] at hiv16
    cases hiv16)
  have hBne : bytesToHex (gcmTag iv ct) ≠ [] :=
    bytesToHex_ne_nil (gcmTag_ne_nil iv ct)
  have hClen : (bytesToHex ct).length = 2 * ct.length := bytesToHex_length _
  have hkdiv : k / 2 < ct.length := by omega
  by_cases hb58 : b = colon
  · subst hb58
    rw [List.set_eq_take_append_cons_drop, if_pos hk]
    have htake : colon ∉ (bytesToHex ct).take k :=
      fun hm => hC (List.mem_of_mem_take hm)
    have hdrop : colon ∉ (bytesToHex ct).drop (k + 1) :=
      fun hm => hC (List.mem_of_mem_drop hm)
    have hsplit : splitOnColon ((bytesToHex iv ++
        colon :: bytesToHex (gcmTag iv ct)) ++
          colon :: ((bytesToHex ct).take k ++
            colon :: (bytesToHex ct).drop (k + 1))) =
        [bytesToHex iv, bytesToHex (gcmTag iv ct), (bytesToHex ct).take k,
          (bytesToHex ct).drop (k + 1)] := by
      simp only [List.append_assoc, List.cons_append]
      rw [splitOnColon_append _ hA, splitOnColon_append _ hB,
        splitOnColon_append _ htake, splitOnColon_no_colon hdrop]
    by_cases hk0 : k = 0
    · subst hk0
      exact ⟨_, decrypt_empty_segment h64 hsplit
        (Or.inr (Or.inr (List.take_zero _)))⟩
    · have hZne : (bytesToHex ct).take k ≠ [] := by
        intro hx
        have := congrArg List.length hx
        rw [List.length_take] at this
        simp only [List.length_nil] at this
        omega
      refine ⟨_, decrypt_auth_fail h64 h32 hsplit hAne hBne hZne ?_⟩
      rw [hexToBytes_take_bytesToHex ct hctb k, hexToBytes_bytesToHex hivb,
        hexToBytes_bytesToHex htagb]
      intro heq
      have := congrArg List.length heq
      rw [gcmTag_length, gcmTag_length, List.length_take] at this
      omega
  · have hset : colon ∉ (bytesToHex ct).set k b := by
      intro hm
      rcases List.mem_or_eq_of_mem_set hm with h | h
      · exact hC h
      · exact hb58 h.symm
    have hsplit := @splitOnColon_envelope (bytesToHex iv)
      (bytesToHex (gcmTag iv ct)) ((bytesToHex ct).set k b) hA hB hset
    have hZne : (bytesToHex ct).set k b ≠ [] := by
      intro hx
      have := congrArg List.length hx
      rw [List.length_set] at this
      simp only [List.length_nil] at this
      omega
    refine ⟨_, decrypt_auth_fail h64 h32 hsplit hAne hBne hZne ?_⟩
    rw [hexToBytes_bytesToHex hivb, hexToBytes_bytesToHex htagb]
    rcases hv : hexVal b with _ | v
    · rw [hexToBytes_set_invalid ct hctb k b hv (by omega)]
      intro heq
      have := congrArg List.length heq
      rw [gcmTag_length, gcmTag_length, List.length_take] at this
      omega
    · have hsem' : hexVal b ≠ hexVal ((bytesToHex ct).getD k 0) := by
        rcases hsem with h | h
        · rw [hv] at h
          cases h
        · exact h
      obtain ⟨hlen, hne⟩ := hexToBytes_set_valid ct hctb k b v hv (by omega) hsem'
      intro heq
      exact hne (gcmTag_inj_of_len rfl heq).2.symm

/-- Changing any single byte of a sealed envelope to a byte that does not
denote the same hex value makes `decrypt` fail. -/
theorem decrypt_flip_fails {key iv text env : List Nat}
    (hiv16 : iv.length = 16) (hivb : ∀ x ∈ iv, x < 256)
    (htb : ∀ x ∈ text, x < 256) (hne : text ≠ [])
    (henc : encrypt key iv text = .ok env)
    {i b : Nat} (hi : i < env.length) (hbne : b ≠ env.getD i 0)
    (hsem : hexVal b = none ∨ hexVal b ≠ hexVal (env.getD i 0)) :
    ∃ msg, decrypt key (env.set i b) = .error msg := by
  obtain ⟨h64, h32, henv⟩ := encrypt_ok_elim henc
  have hctb : ∀ x ∈ xorKs (hexToBytes key) iv 0 text, x < 256 :=
    xorKs_lt _ _ _ _ htb
  have hctne : xorKs (hexToBytes key) iv 0 text ≠ [] := by
    intro hx
    have hl := xorKs_length (hexToBytes key) iv 0 text
    rw [hx] at hl
    exact hne (List.length_eq_zero.mp hl.symm)
  subst henv
  have hAlen : (bytesToHex iv).length = 32 := by rw [bytesToHex_length, hiv16]
  have hLlen : (bytesToHex iv ++
      colon :: bytesToHex (gcmTag iv (xorKs (hexToBytes key) iv 0 text))).length =
      33 + (bytesToHex (gcmTag iv (xorKs (hexToBytes key) iv 0 text))).length := by
    rw [List.length_append, List.length_cons, hAlen]
    omega
  have hElen : ((bytesToHex iv ++
      colon :: bytesToHex (gcmTag iv (xorKs (hexToBytes key) iv 0 text))) ++
      colon :: bytesToHex (xorKs (hexToBytes key) iv 0 text)).length =
      34 + (bytesToHex (gcmTag iv (xorKs (hexToBytes key) iv 0 text))).length +
        (bytesToHex (xorKs (hexToBytes key) iv 0 text)).length := by
    rw [List.length_append, hLlen, List.length_cons]
    omega
  rcases Nat.lt_or_ge i 32 with hc1 | hc1
  · have hgd : ((bytesToHex iv ++
        colon :: bytesToHex (gcmTag iv (xorKs (hexToBytes key) iv 0 text))) ++
        colon :: bytesToHex (xorKs (hexToBytes key) iv 0 text)).getD i 0 =
        (bytesToHex iv).getD i 0 := by
      rw [List.getD_append _ _ _ _ (by rw [hLlen]; omega),
        List.getD_append _ _ _ _ (by omega)]
    have hset : ((bytesToHex iv ++
        colon :: bytesToHex (gcmTag iv (xorKs (hexToBytes key) iv 0 text))) ++
        colon :: bytesToHex (xorKs (hexToBytes key) iv 0 text)).set i b =
        ((bytesToHex iv).set i b ++
          colon :: bytesToHex (gcmTag iv (xorKs (hexToBytes key) iv 0 text))) ++
          colon :: bytesToHex (xorKs (hexToBytes key) iv 0 text) := by
      rw [List.set_append, if_pos (by rw [hLlen]; omega), List.set_append,
        if_pos (by omega)]
    rw [hset]
    rw [hgd] at hsem
    exact decryptFlip_iv h64 h32 hiv16 hivb hctb hctne hc1 hsem
  · by_cases hc2 : i = 32
    · subst hc2
      have hgd : ((bytesToHex iv ++
          colon :: bytesToHex (gcmTag iv (xorKs (hexToBytes key) iv 0 text))) ++
          colon :: bytesToHex (xorKs (hexToBytes key) iv 0 text)).getD 32 0 =
          colon := by
        rw [List.getD_append _ _ _ _ (by rw [hLlen]; omega),
          List.getD_append_right _ _ _ _ (by omega),
          show 32 - (bytesToHex iv).length = 0 by omega, List.getD_cons_zero]
      have hset : ((bytesToHex iv ++
          colon :: bytesToHex (gcmTag iv (xorKs (hexToBytes key) iv 0 text))) ++
          colon :: bytesToHex (xorKs (hexToBytes key) iv 0 text)).set 32 b =
          ((bytesToHex iv) ++
            b :: bytesToHex (gcmTag iv (xorKs (hexToBytes key) iv 0 text))) ++
            colon :: bytesToHex (xorKs (hexToBytes key) iv 0 text) := by
        rw [List.set_append, if_pos (by rw [hLlen]; omega), List.set_append,
          if_neg (by omega), show 32 - (bytesToHex iv).length = 0 by omega,
          List.set_cons_zero]
      rw [hset]
      exact ⟨_, decryptFlip_colon1 h64 hivb hctb (hgd ▸ hbne)⟩
    · by_cases hc3 : i < 33 +
          (bytesToHex (gcmTag iv (xorKs (hexToBytes key) iv 0 text))).length
      · have hgd : ((bytesToHex iv ++
            colon :: bytesToHex (gcmTag iv (xorKs (hexToBytes key) iv 0 text))) ++
            colon :: bytesToHex (xorKs (hexToBytes key) iv 0 text)).getD i 0 =
            (bytesToHex (gcmTag iv (xorKs (hexToBytes key) iv 0 text))).getD
              (i - 33) 0 := by
          rw [List.getD_append _ _ _ _ (by rw [hLlen]; omega),
            List.getD_append_right _ _ _ _ (by omega),
            show i - (bytesToHex iv).length = (i - 33) + 1 by omega,
            List.getD_cons_succ]
        have hset : ((bytesToHex iv ++
            colon :: bytesToHex (gcmTag iv (xorKs (hexToBytes key) iv 0 text))) ++
            colon :: bytesToHex (xorKs (hexToBytes key) iv 0 text)).set i b =
            ((bytesToHex iv) ++
              colon :: (bytesToHex
                (gcmTag iv (xorKs (hexToBytes key) iv 0 text))).set (i - 33) b) ++
              colon :: bytesToHex (xorKs (hexToBytes key) iv 0 text) := by
          rw [List.set_append, if_pos (by rw [hLlen]; omega), List.set_append,
            if_neg (by omega),
            show i - (bytesToHex iv).length = (i - 33) + 1 by omega,
            List.set_cons_succ]
        rw [hset]
        rw [hgd] at hsem
        exact decryptFlip_tag h64 h32 hiv16 hivb hctb hctne (by omega) hsem
      · by_cases hc4 : i = 33 +
            (bytesToHex (gcmTag iv (xorKs (hexToBytes key) iv 0 text))).length
        · have hgd : ((bytesToHex iv ++
              colon :: bytesToHex (gcmTag iv (xorKs (hexToBytes key) iv 0 text))) ++
              colon :: bytesToHex (xorKs (hexToBytes key) iv 0 text)).getD i 0 =
              colon := by
            rw [List.getD_append_right _ _ _ _ (by rw [hLlen]; omega),
              show i - (bytesToHex iv ++
                colon :: bytesToHex
                  (gcmTag iv (xorKs (hexToBytes key) iv 0 text))).length = 0 by
                rw [hLlen]; omega,
              List.getD_cons_zero]
          have hset : ((bytesToHex iv ++
              colon :: bytesToHex (gcmTag iv (xorKs (hexToBytes key) iv 0 text))) ++
              colon :: bytesToHex (xorKs (hexToBytes key) iv 0 text)).set i b =
              ((bytesToHex iv) ++
                colon :: bytesToHex (gcmTag iv (xorKs (hexToBytes key) iv 0 text))) ++
                b :: bytesToHex (xorKs (hexToBytes key) iv 0 text) := by
            rw [List.set_append, if_neg (by rw [hLlen]; omega),
              show i - (bytesToHex iv ++
                colon :: bytesToHex
                  (gcmTag iv (xorKs (hexToBytes key) iv 0 text))).length = 0 by
                rw [hLlen]; omega,
              List.set_cons_zero]
          rw [hset]
          exact ⟨_, decryptFlip_colon2 h64 hivb hctb (hgd ▸ hbne)⟩
        · have hklt : i - (34 +
              (bytesToHex (gcmTag iv (xorKs (hexToBytes key) iv 0 text))).length) <
              (bytesToHex (xorKs (hexToBytes key) iv 0 text)).length := by
            rw [hElen] at hi
            omega
          have hgd : ((bytesToHex iv ++
              colon :: bytesToHex (gcmTag iv (xorKs (hexToBytes key) iv 0 text))) ++
              colon :: bytesToHex (xorKs (hexToBytes key) iv 0 text)).getD i 0 =
              (bytesToHex (xorKs (hexToBytes key) iv 0 text)).getD
                (i - (34 + (bytesToHex
                  (gcmTag iv (xorKs (hexToBytes key) iv 0 text))).length)) 0 := by
            rw [List.getD_append_right _ _ _ _ (by rw [hLlen]; omega),
              show i - (bytesToHex iv ++
                colon :: bytesToHex
                  (gcmTag iv (xorKs (hexToBytes key) iv 0 text))).length =
                (i - (34 + (bytesToHex
                  (gcmTag iv (xorKs (hexToBytes key) iv 0 text))).length)) + 1 by
                rw [hLlen]; omega,
              List.getD_cons_succ]
          have hset : ((bytesToHex iv ++
              colon :: bytesToHex (gcmTag iv (xorKs (hexToBytes key) iv 0 text))) ++
              colon :: bytesToHex (xorKs (hexToBytes key) iv 0 text)).set i b =
              ((bytesToHex iv) ++
                colon :: bytesToHex (gcmTag iv (xorKs (hexToBytes key) iv 0 text))) ++
                colon :: (bytesToHex (xorKs (hexToBytes key) iv 0 text)).set
                  (i - (34 + (bytesToHex
                    (gcmTag iv (xorKs (hexToBytes key) iv 0 text))).length)) b := by
            rw [List.set_append, if_neg (by rw [hLlen]; omega),
              show i - (bytesToHex iv ++
                colon :: bytesToHex
                  (gcmTag iv (xorKs (hexToBytes key) iv 0 text))).length =
                (i - (34 + (bytesToHex
                  (gcmTag iv (xorKs (hexToBytes key) iv 0 text))).length)) + 1 by
                rw [hLlen]; omega,
              List.set_cons_succ]
          rw [hset]
          rw [hgd] at hsem
          exact decryptFlip_ct h64 h32 hiv16 hivb hctb hctne hklt hsem

/-! ## C2 — codec roundtrip and tamper detection -/

/-- C2, counterexample: the claim fails in two ways.  The empty secret does
not round-trip — `decrypt (encrypt "")` throws "Invalid encrypted text
format", because the empty ciphertext segment fails the JS falsiness check.
And flipping the final envelope byte from 98 ("b") to the different byte 66
("B") — a single-byte change of the envelope — leaves decryption returning
the plaintext, because Node's hex parsing is case-insensitive. -/
theorem C2_counterexample :
    (encrypt key0 iv0 []).bind (decrypt key0) =
      .error "Invalid encrypted text format" ∧
    encrypt key0 iv0 [171] = .ok envAB ∧
    envAB.getD 105 0 = 98 ∧ (66 : Nat) ≠ 98 ∧
    decrypt key0 (envAB.set 105 66) = .ok [171] :=
  ⟨rfl, rfl, rfl, by decide, rfl⟩

/-- C2, amended: for every nonempty secret the envelope decrypts back to the
secret; and flipping any single envelope byte to a byte that does not denote
the same hex digit value (the one exception: changing a hex letter's case)
makes `decrypt` fail rather than return a plaintext. -/
theorem C2_roundtrip_and_flip (key iv text env : List Nat)
    (hiv16 : iv.length = 16) (hivb : ∀ x ∈ iv, x < 256)
    (htb : ∀ x ∈ text, x < 256) (hne : text ≠ [])
    (henc : encrypt key iv text = .ok env) :
    decrypt key env = .ok text ∧
    ∀ i b, i < env.length → b ≠ env.getD i 0 →
      (hexVal b = none ∨ hexVal b ≠ hexVal (env.getD i 0)) →
      ∃ msg, decrypt key (env.set i b) = .error msg := by
  have hivne : iv ≠ [] := by
    intro hx
    rw [hx] at hiv16
    cases hiv16
  exact ⟨decrypt_encrypt hivne hivb htb hne henc,
    fun i b hi hbne hsem => decrypt_flip_fails hiv16 hivb htb hne henc hi hbne hsem⟩

/-- C2, witness: the roundtrip and one concrete failing flip at the concrete
envelope. -/
theorem C2_roundtrip_and_flip_witness :
    (iv0.length = 16 ∧ (∀ x ∈ iv0, x < 256) ∧ (∀ x ∈ [171], x < (256 : Nat)) ∧
      ([171] : List Nat) ≠ [] ∧ encrypt key0 iv0 [171] = .ok envAB ∧
      0 < envAB.length ∧ (58 : Nat) ≠ envAB.getD 0 0 ∧ hexVal 58 = none) ∧
    decrypt key0 envAB = .ok [171] ∧
    ∃ msg, decrypt key0 (envAB.set 0 58) = .error msg :=
  ⟨⟨by decide, by decide, by decide, by decide, by rfl, by decide, by decide,
      by decide⟩,
    (C2_roundtrip_and_flip key0 iv0 [171] envAB (by decide) (by decide)
      (by decide) (by decide) (by rfl)).1,
    (C2_roundtrip_and_flip key0 iv0 [171] envAB (by decide) (by decide)
      (by decide) (by decide) (by rfl)).2 0 58 (by decide) (by decide)
      (Or.inl (by decide))⟩

end YtDash
